import Mathlib

/-!
Verification of the `drawer` bytecode machine: a shallow embedding of the
instruction encoding (src/lib.rs, src/instruction.rs), the assembler
(src/bin/assembler.rs) and the virtual machine (src/vm.rs), together with
theorems settling the specification claims about them.

Modelling conventions:
* Machine integers (`u8`, `u16`) are `Nat` with explicit `% 2 ^ 16` wrapping
  where the source wraps.
* `f64` is modelled by `F64`: either an exact rational, `inf`, `negInf` or
  `nan`.  The finite arithmetic is exact rational arithmetic; IEEE rounding
  and the sign of zero are not modelled (every concrete value arising in the
  runs verified here is exactly representable, so the model and IEEE agree
  on them).  The special-value propagation rules (division by zero producing
  an infinity or `nan`, `nan` being absorbing and incomparable) follow IEEE.
* The host math library calls made by the `Move`/`FWD` instruction
  (`to_radians`, `cos`, `sin`) are a parameter `HostMath` of the semantics;
  theorems about runs that use them assume only their (exact) IEEE values at
  the arguments actually reached.
* Rust panics (index out of bounds, division by zero, `assert!`, `expect`)
  are modelled as `Except` errors.
-/

/-- Model of a Rust `f64`: an exact rational, an infinity, or `nan`.
IEEE rounding and signed zero are not modelled (see the file header). -/
inductive F64 where
  | finite (q : ℚ)
  | inf
  | negInf
  | nan
deriving DecidableEq, Repr

namespace F64

/-- IEEE negation. -/
def neg : F64 → F64
  | finite q => finite (-q)
  | inf => negInf
  | negInf => inf
  | nan => nan

/-- IEEE addition (on the model: exact on finite values). -/
def add : F64 → F64 → F64
  | nan, _ => nan
  | _, nan => nan
  | inf, negInf => nan
  | negInf, inf => nan
  | inf, _ => inf
  | _, inf => inf
  | negInf, _ => negInf
  | _, negInf => negInf
  | finite a, finite b => finite (a + b)

/-- IEEE subtraction: `a - b = a + (-b)`. -/
def sub (a b : F64) : F64 := a.add b.neg

/-- IEEE multiplication (on the model: exact on finite values). -/
def mul : F64 → F64 → F64
  | nan, _ => nan
  | _, nan => nan
  | inf, inf => inf
  | inf, negInf => negInf
  | negInf, inf => negInf
  | negInf, negInf => inf
  | inf, finite b => if b = 0 then nan else if 0 < b then inf else negInf
  | negInf, finite b => if b = 0 then nan else if 0 < b then negInf else inf
  | finite a, inf => if a = 0 then nan else if 0 < a then inf else negInf
  | finite a, negInf => if a = 0 then nan else if 0 < a then negInf else inf
  | finite a, finite b => finite (a * b)

/-- IEEE division.  Finite-by-zero gives a signed infinity (`0/0` gives
`nan`); the sign of zero is not modelled, so `x / (-0.0)` is not
distinguished from `x / 0.0`. -/
def div : F64 → F64 → F64
  | nan, _ => nan
  | _, nan => nan
  | inf, inf => nan
  | inf, negInf => nan
  | negInf, inf => nan
  | negInf, negInf => nan
  | inf, finite b => if 0 ≤ b then inf else negInf
  | negInf, finite b => if 0 ≤ b then negInf else inf
  | finite _, inf => finite 0
  | finite _, negInf => finite 0
  | finite a, finite b =>
      if b = 0 then (if 0 < a then inf else if a < 0 then negInf else nan)
      else finite (a / b)

/-- IEEE `abs`. -/
def absF : F64 → F64
  | finite q => finite |q|
  | inf => inf
  | negInf => inf
  | nan => nan

/-- IEEE `<` comparison: `nan` is incomparable. -/
def lt : F64 → F64 → Bool
  | nan, _ => false
  | _, nan => false
  | inf, _ => false
  | finite _, inf => true
  | negInf, inf => true
  | negInf, negInf => false
  | negInf, finite _ => true
  | finite _, negInf => false
  | finite a, finite b => decide (a < b)

/-- Truncation toward zero of a rational (used by Rust `as` casts). -/
def ratTrunc (q : ℚ) : ℤ := if 0 ≤ q then ⌊q⌋ else ⌈q⌉

/-- Rust `f64 as u16`: saturating cast (`nan` to 0, clamped to
`[0, 0xffff]`, truncated toward zero). -/
def toU16 : F64 → Nat
  | nan => 0
  | inf => 65535
  | negInf => 0
  | finite q => if q < 0 then 0 else min (ratTrunc q).toNat 65535

/-- Rust `f64 as isize` (64-bit): saturating cast (`nan` to 0, clamped to
the `isize` range, truncated toward zero). -/
def toIsize : F64 → Int
  | nan => 0
  | inf => 2 ^ 63 - 1
  | negInf => -(2 ^ 63)
  | finite q => max (-(2 ^ 63)) (min (2 ^ 63 - 1) (ratTrunc q))

/-- The value is an infinity or `nan` (a non-finite IEEE value). -/
def isInfOrNan : F64 → Bool
  | finite _ => false
  | inf => true
  | negInf => true
  | nan => true

end F64

/-- `f64::EPSILON` = 2⁻⁵² (exactly representable, hence an exact rational). -/
def f64Epsilon : F64 := F64.finite (1 / 2 ^ 52)

/-- The integer register bank (src/vm.rs `UintRegister`): 8 registers
holding a `u16`; register `A` doubles as the heading angle. -/
inductive UintRegister where
  | A | B | C | D | E | F | G | H
deriving DecidableEq, Repr

/-- Discriminant of `UintRegister` (`A = 0` .. `H = 7`). -/
def UintRegister.toU8 : UintRegister → Nat
  | .A => 0
  | .B => 1
  | .C => 2
  | .D => 3
  | .E => 4
  | .F => 5
  | .G => 6
  | .H => 7

/-- The float register bank (src/vm.rs `FloatRegister`): 8 registers
holding an `f64`; `X` and `Y` are the drawing position. -/
inductive FloatRegister where
  | S | T | U | V | W | X | Y | Z
deriving DecidableEq, Repr

/-- Discriminant of `FloatRegister` (`S = 0` .. `Z = 7`). -/
def FloatRegister.toU8 : FloatRegister → Nat
  | .S => 0
  | .T => 1
  | .U => 2
  | .V => 3
  | .W => 4
  | .X => 5
  | .Y => 6
  | .Z => 7

/-- A machine register: one of the two banks (src/vm.rs `Register`). -/
inductive Register where
  | UintRegister (r : UintRegister)
  | FloatRegister (r : FloatRegister)
deriving DecidableEq, Repr

/-- `Register::from_u8` (src/vm.rs): registers 0x0–0x7 are the integer
bank, 0x8–0xf the float bank; anything else panics (modelled as `none`). -/
def Register.from_u8 (r : Nat) : Option Register :=
  match r with
  | 0x0 => some (.UintRegister .A)
  | 0x1 => some (.UintRegister .B)
  | 0x2 => some (.UintRegister .C)
  | 0x3 => some (.UintRegister .D)
  | 0x4 => some (.UintRegister .E)
  | 0x5 => some (.UintRegister .F)
  | 0x6 => some (.UintRegister .G)
  | 0x7 => some (.UintRegister .H)
  | 0x8 => some (.FloatRegister .S)
  | 0x9 => some (.FloatRegister .T)
  | 0xa => some (.FloatRegister .U)
  | 0xb => some (.FloatRegister .V)
  | 0xc => some (.FloatRegister .W)
  | 0xd => some (.FloatRegister .X)
  | 0xe => some (.FloatRegister .Y)
  | 0xf => some (.FloatRegister .Z)
  | _ => none

/-- The byte encoding a register (the discriminant used by the format). -/
def Register.toU8 : Register → Nat
  | .UintRegister r => r.toU8
  | .FloatRegister r => 8 + r.toU8

/-- An operand value (src/vm.rs `Value`): an immediate `u16`, an immediate
float (a variant that the decoder never produces), or a register
reference. -/
inductive Value where
  | Uint (v : Nat)
  | Float (v : F64)
  | Register (r : Register)
deriving DecidableEq, Repr

/-- A decoded instruction (src/instruction.rs `Instruction`; src/vm.rs
names the `FWD` instruction `Move` instead of `Forward`, with identical
semantics).  Addresses are instruction indices (`u16`, modelled as
`Nat`). -/
inductive Instruction where
  | Draw
  | Halt
  | Forward
  | Multiply (r : Register) (v : Value)
  | Divide (r : Register) (v : Value)
  | Add (r : Register) (v : Value)
  | Sub (r : Register) (v : Value)
  | Store (r : Register) (v : Value)
  | Decrement (r : Register)
  | Increment (r : Register)
  | JumpIfNonZero (r : Register) (addr : Nat)
  | JumpIfEqual (r : Register) (v : Value) (addr : Nat)
  | JumpIfNotEqual (r : Register) (v : Value) (addr : Nat)
  | JumpIfGreaterThan (r : Register) (v : Value) (addr : Nat)
  | JumpIfLessThan (r : Register) (v : Value) (addr : Nat)
deriving DecidableEq, Repr

/-- The opcode table (src/lib.rs `Opcode`). -/
inductive Opcode where
  | DRW | FWD | STO | INC | ADD | DEC | JNZ | HLT | MUL | JGT | SUB | JEQ | JNE | JLT | DIV
deriving DecidableEq, Repr

/-- The `repr(u8)` discriminants of `Opcode` (src/lib.rs): `DRW = 0x01`
through `DIV = 0x0f`.  No variant has discriminant 0. -/
def Opcode.toU8 : Opcode → Nat
  | .DRW => 0x01
  | .FWD => 0x02
  | .STO => 0x03
  | .INC => 0x04
  | .ADD => 0x05
  | .DEC => 0x06
  | .JNZ => 0x07
  | .HLT => 0x08
  | .MUL => 0x09
  | .JGT => 0x0a
  | .SUB => 0x0b
  | .JEQ => 0x0c
  | .JNE => 0x0d
  | .JLT => 0x0e
  | .DIV => 0x0f

/-- The opcode whose discriminant is `n`, if any.  This is the inverse of
the discriminant table: defined exactly on 0x01–0x0f. -/
def Opcode.ofU8 (n : Nat) : Option Opcode :=
  match n with
  | 0x01 => some .DRW
  | 0x02 => some .FWD
  | 0x03 => some .STO
  | 0x04 => some .INC
  | 0x05 => some .ADD
  | 0x06 => some .DEC
  | 0x07 => some .JNZ
  | 0x08 => some .HLT
  | 0x09 => some .MUL
  | 0x0a => some .JGT
  | 0x0b => some .SUB
  | 0x0c => some .JEQ
  | 0x0d => some .JNE
  | 0x0e => some .JLT
  | 0x0f => some .DIV
  | _ => none

/-- The acceptance guard of `Opcode::try_from(u8)` (src/lib.rs line 31):
the input is accepted, and then `transmute`d to `Opcode`, whenever
`input <= 0x0f`.  Note the guard also accepts 0x00, which is not the
discriminant of any variant: transmuting it is undefined behavior in the
source (the safety comment there only checks the upper bound). -/
def opcodeTryFromAccepts (input : Nat) : Bool := input ≤ 0x0f

/-- A pixel event `(x, y, color)` as returned by `Vm::step`
(src/vm.rs: `Option<(isize, isize, u32)>`). -/
abbrev Pixel := Int × Int × Nat

/-- The host math library functions called by the `FWD`/`Move` instruction
(`f64::to_radians`, `f64::cos`, `f64::sin`).  The semantics is
parametrized by them; theorems about runs assume only their exact IEEE
values at the arguments actually reached (e.g. `cos 0.0 = 1.0`). -/
structure HostMath where
  toRadians : F64 → F64
  cos : F64 → F64
  sin : F64 → F64

/-- Runtime faults of the VM (Rust panics), plus the fuel-exhaustion
marker used only by the `Vm.run` totality device. -/
inductive VmError where
  | fetchOutOfBounds
  | divByZero
  | outOfFuel
deriving DecidableEq, Repr

/-- The VM state (src/vm.rs `Vm`): program counter, pen flag, read-only
program, terminated flag and the two register banks. -/
structure Vm where
  pc : Nat
  draw : Bool
  program : List Instruction
  terminated : Bool
  uint_registers : UintRegister → Nat
  float_registers : FloatRegister → F64

/-- `Vm::new` (src/vm.rs): program counter 0, pen up, not terminated, all
registers zero. -/
def Vm.new (program : List Instruction) : Vm where
  pc := 0
  draw := false
  program := program
  terminated := false
  uint_registers := fun _ => 0
  float_registers := fun _ => F64.finite 0

/-- Update one integer register. -/
def setUint (f : UintRegister → Nat) (r : UintRegister) (v : Nat) : UintRegister → Nat :=
  fun s => if s = r then v else f s

/-- Update one float register. -/
def setFloat (f : FloatRegister → F64) (r : FloatRegister) (v : F64) : FloatRegister → F64 :=
  fun s => if s = r then v else f s

/-- `u16::overflowing_add`: wrapped sum and whether it wrapped. -/
def overflowing_add (a b : Nat) : Nat × Bool :=
  ((a + b) % 2 ^ 16, decide (2 ^ 16 ≤ a + b))

/-- `u16::overflowing_sub`: wrapped difference and whether it wrapped
(for operands below 2¹⁶). -/
def overflowing_sub (a b : Nat) : Nat × Bool :=
  if b ≤ a then (a - b, false) else (a + 2 ^ 16 - b, true)

/-- `u16::overflowing_mul`: wrapped product and whether it wrapped. -/
def overflowing_mul (a b : Nat) : Nat × Bool :=
  (a * b % 2 ^ 16, decide (2 ^ 16 ≤ a * b))

/-- `Vm::unwrap_uint_value` (src/vm.rs): read an operand as a `u16`
(floats are cast with `as u16`). -/
def Vm.unwrap_uint_value (vm : Vm) (value : Value) : Nat :=
  match value with
  | .Uint v => v
  | .Float v => v.toU16
  | .Register (.UintRegister r) => vm.uint_registers r
  | .Register (.FloatRegister r) => (vm.float_registers r).toU16

/-- `Vm::unwrap_float_value` (src/vm.rs): read an operand as an `f64`
(`u16` values are cast with `as f64`, which is exact). -/
def Vm.unwrap_float_value (vm : Vm) (value : Value) : F64 :=
  match value with
  | .Uint v => F64.finite v
  | .Float v => v
  | .Register (.UintRegister r) => F64.finite (vm.uint_registers r)
  | .Register (.FloatRegister r) => vm.float_registers r

/-- `Vm::check_conditional` (src/vm.rs): dispatch on the bank of the
tested register; an integer register and its operand are cast to `f64`
(exact for `u16`) before applying the predicate. -/
def Vm.check_conditional (vm : Vm) (register : Register) (value : Value)
    (f : F64 → F64 → Bool) : Bool :=
  match register with
  | .UintRegister r =>
      f (F64.finite (vm.uint_registers r)) (F64.finite (vm.unwrap_uint_value value))
  | .FloatRegister r =>
      f (vm.float_registers r) (vm.unwrap_float_value value)

/-- The predicate of `JumpIfEqual` (src/vm.rs line 283):
`(a - b).abs() < f64::EPSILON`. -/
def eqPred (a b : F64) : Bool := (a.sub b).absF.lt f64Epsilon

/-- The predicate of `JumpIfNotEqual` and `JumpIfNonZero` (src/vm.rs
lines 273, 293): `(a - b).abs() > f64::EPSILON`. -/
def nePred (a b : F64) : Bool := f64Epsilon.lt (a.sub b).absF

/-- The predicate of `JumpIfGreaterThan` (src/vm.rs line 300): `a > b`. -/
def gtPred (a b : F64) : Bool := b.lt a

/-- The predicate of `JumpIfLessThan` (src/vm.rs line 306): `a < b`. -/
def ltPred (a b : F64) : Bool := a.lt b

/-- The shared tail of `Vm::step` (src/vm.rs lines 343–354): increment the
program counter, then emit a pixel event at the integer-truncated `X`/`Y`
position with color `0xffffff` whenever the pen is down.  The `Bool`
records whether an overflow warning was printed during the step. -/
def stepFinish (vm : Vm) (warned : Bool) : Except VmError (Vm × Option Pixel × Bool) :=
  let vm' := { vm with pc := vm.pc + 1 }
  if vm'.draw then
    .ok (vm', some ((vm'.float_registers .X).toIsize, (vm'.float_registers .Y).toIsize, 0xffffff),
      warned)
  else
    .ok (vm', none, warned)

/-- `Vm::step` (src/vm.rs).  Fetching `program[pc]` out of bounds and
unsigned division by zero are Rust panics, modelled as errors.  The result
carries the new state, the optional pixel event, and whether an overflow
diagnostic (`eprintln!`) was emitted. -/
def Vm.step (m : HostMath) (vm : Vm) : Except VmError (Vm × Option Pixel × Bool) :=
  match vm.program.get? vm.pc with
  | none => .error .fetchOutOfBounds
  | some instr =>
    match instr with
    | .Draw => stepFinish { vm with draw := !vm.draw } false
    | .Forward =>
        let angle : Nat := vm.uint_registers .A % 360
        let radians := m.toRadians (F64.finite angle)
        let fr := setFloat vm.float_registers .X
          ((vm.float_registers .X).add (m.cos radians))
        let fr := setFloat fr .Y ((fr .Y).add (m.sin radians))
        stepFinish { vm with float_registers := fr } false
    | .Halt => stepFinish { vm with terminated := true } false
    | .Add register value =>
        match register with
        | .UintRegister r =>
            let v := vm.unwrap_uint_value value
            let (v, overflowed) := overflowing_add (vm.uint_registers r) v
            stepFinish { vm with uint_registers := setUint vm.uint_registers r v } overflowed
        | .FloatRegister r =>
            let fr := setFloat vm.float_registers r
              ((vm.float_registers r).add (vm.unwrap_float_value value))
            stepFinish { vm with float_registers := fr } false
    | .Sub register value =>
        match register with
        | .UintRegister r =>
            let v := vm.unwrap_uint_value value
            let (v, overflowed) := overflowing_sub (vm.uint_registers r) v
            stepFinish { vm with uint_registers := setUint vm.uint_registers r v } overflowed
        | .FloatRegister r =>
            let fr := setFloat vm.float_registers r
              ((vm.float_registers r).sub (vm.unwrap_float_value value))
            stepFinish { vm with float_registers := fr } false
    | .Store r1 value =>
        match r1 with
        | .UintRegister r =>
            let ur := setUint vm.uint_registers r (vm.unwrap_uint_value value)
            stepFinish { vm with uint_registers := ur } false
        | .FloatRegister r =>
            let fr := setFloat vm.float_registers r (vm.unwrap_float_value value)
            stepFinish { vm with float_registers := fr } false
    | .Increment register =>
        match register with
        | .UintRegister r =>
            let (v, overflowed) := overflowing_add (vm.uint_registers r) 1
            stepFinish { vm with uint_registers := setUint vm.uint_registers r v } overflowed
        | .FloatRegister r =>
            let fr := setFloat vm.float_registers r ((vm.float_registers r).add (F64.finite 1))
            stepFinish { vm with float_registers := fr } false
    | .Decrement register =>
        match register with
        | .UintRegister r =>
            let (v, overflowed) := overflowing_sub (vm.uint_registers r) 1
            stepFinish { vm with uint_registers := setUint vm.uint_registers r v } overflowed
        | .FloatRegister r =>
            let fr := setFloat vm.float_registers r ((vm.float_registers r).sub (F64.finite 1))
            stepFinish { vm with float_registers := fr } false
    | .JumpIfNonZero register addr =>
        if vm.check_conditional register (.Uint 0) nePred then
          .ok ({ vm with pc := addr }, none, false)
        else stepFinish vm false
    | .JumpIfEqual register value addr =>
        if vm.check_conditional register value eqPred then
          .ok ({ vm with pc := addr }, none, false)
        else stepFinish vm false
    | .JumpIfNotEqual register value addr =>
        if vm.check_conditional register value nePred then
          .ok ({ vm with pc := addr }, none, false)
        else stepFinish vm false
    | .JumpIfGreaterThan register value addr =>
        if vm.check_conditional register value gtPred then
          .ok ({ vm with pc := addr }, none, false)
        else stepFinish vm false
    | .JumpIfLessThan register value addr =>
        if vm.check_conditional register value ltPred then
          .ok ({ vm with pc := addr }, none, false)
        else stepFinish vm false
    | .Multiply register value =>
        match register with
        | .UintRegister r =>
            let v := vm.unwrap_uint_value value
            let (v, overflowed) := overflowing_mul (vm.uint_registers r) v
            stepFinish { vm with uint_registers := setUint vm.uint_registers r v } overflowed
        | .FloatRegister r =>
            let v := vm.unwrap_float_value value
            let fr := setFloat vm.float_registers r ((vm.float_registers r).mul v)
            stepFinish { vm with float_registers := fr } false
    | .Divide register value =>
        match register with
        | .UintRegister r =>
            let v := vm.unwrap_uint_value value
            -- `u16::overflowing_div` panics when the divisor is zero
            if v = 0 then .error .divByZero
            else
              let ur := setUint vm.uint_registers r (vm.uint_registers r / v)
              stepFinish { vm with uint_registers := ur } false
        | .FloatRegister r =>
            let v := vm.unwrap_float_value value
            let fr := setFloat vm.float_registers r ((vm.float_registers r).div v)
            stepFinish { vm with float_registers := fr } false

/-- The driver loop of src/main.rs: step while the VM has not terminated,
collecting, in order, the executed instruction of each step and its pixel
event.  `fuel` bounds the number of steps only to make the function total;
every theorem below supplies enough fuel for the run it examines. -/
def Vm.run (m : HostMath) : Nat → Vm → Except VmError (Vm × List (Instruction × Option Pixel))
  | 0, vm => if vm.terminated then .ok (vm, []) else .error .outOfFuel
  | fuel + 1, vm =>
    if vm.terminated then .ok (vm, [])
    else
      match vm.program.get? vm.pc with
      | none => .error .fetchOutOfBounds
      | some instr =>
        match Vm.step m vm with
        | .error e => .error e
        | .ok (vm', px, _) =>
          match Vm.run m fuel vm' with
          | .error e => .error e
          | .ok (vmF, trace) => .ok (vmF, (instr, px) :: trace)

/-- Decode-time faults (Rust panics in src/instruction.rs), plus the
fuel-exhaustion marker of the `decode` loop totality device. -/
inductive DecodeError where
  /-- A buffer index out of bounds in `read_u8`/`parse_header`. -/
  | truncated
  /-- The masked opcode byte exceeds 0x0f: `Opcode::try_from` errors and
  `parse_next_instruction` panics. -/
  | invalidOpcode
  /-- A register byte above 0xf: `Register::from_u8` panics. -/
  | invalidRegister
  /-- A masked opcode byte of 0x00: the `try_from` guard accepts it but no
  `Opcode` variant has discriminant 0, so the source transmutes to an
  invalid value (undefined behavior); the error is this model's marker for
  that, not a check present in the source. -/
  | transmuteUndefined
  /-- The `assert_eq!(0x01, version)` in `decode` fails. -/
  | badVersion
  | outOfFuel
deriving DecidableEq, Repr

/-- The byte-stream reader (src/instruction.rs `Program`): a buffer and a
cursor. -/
structure ProgBuf where
  buffer : List Nat
  cursor : Nat

/-- `Program::read_u8`: the next byte (an out-of-bounds index panics). -/
def ProgBuf.read_u8 (p : ProgBuf) : Except DecodeError (Nat × ProgBuf) :=
  match p.buffer.get? p.cursor with
  | some b => .ok (b, { p with cursor := p.cursor + 1 })
  | none => .error .truncated

/-- `Program::read_u16`: two bytes, little-endian. -/
def ProgBuf.read_u16 (p : ProgBuf) : Except DecodeError (Nat × ProgBuf) :=
  match p.read_u8 with
  | .error e => .error e
  | .ok (b0, p) =>
    match p.read_u8 with
    | .error e => .error e
    | .ok (b1, p) => .ok (b0 + 256 * b1, p)

/-- `Program::register`: one byte mapped through `Register::from_u8`. -/
def ProgBuf.register (p : ProgBuf) : Except DecodeError (Register × ProgBuf) :=
  match p.read_u8 with
  | .error e => .error e
  | .ok (b, p) =>
    match Register.from_u8 b with
    | some r => .ok (r, p)
    | none => .error .invalidRegister

/-- `Program::value`: a one-byte register reference when `is_register`,
else a two-byte little-endian immediate. -/
def ProgBuf.value (p : ProgBuf) (is_register : Bool) : Except DecodeError (Value × ProgBuf) :=
  if is_register then
    match p.register with
    | .error e => .error e
    | .ok (r, p) => .ok (Value.Register r, p)
  else
    match p.read_u16 with
    | .error e => .error e
    | .ok (v, p) => .ok (Value.Uint v, p)

/-- `parse_next_instruction` (src/instruction.rs lines 227–260): read the
opcode byte, split off the high bit (register-operand flag), look the low
7 bits up in the opcode table, then read the operands the opcode
requires.  Returns the number of bytes consumed and the instruction. -/
def parse_next_instruction (buffer : List Nat) : Except DecodeError (Nat × Instruction) :=
  let p : ProgBuf := { buffer := buffer, cursor := 0 }
  match p.read_u8 with
  | .error e => .error e
  | .ok (opbyte, p) =>
    let high_bit_set : Bool := opbyte &&& 0x80 ≠ 0
    let masked := opbyte &&& 0x7f
    if opcodeTryFromAccepts masked then
      match Opcode.ofU8 masked with
      | none => .error .transmuteUndefined
      | some opcode =>
        match opcode with
        | .DRW => .ok (p.cursor, .Draw)
        | .FWD => .ok (p.cursor, .Forward)
        | .HLT => .ok (p.cursor, .Halt)
        | .INC =>
          match p.register with
          | .error e => .error e
          | .ok (r, p) => .ok (p.cursor, .Increment r)
        | .DEC =>
          match p.register with
          | .error e => .error e
          | .ok (r, p) => .ok (p.cursor, .Decrement r)
        | .STO =>
          match p.register with
          | .error e => .error e
          | .ok (r, p) =>
            match p.value high_bit_set with
            | .error e => .error e
            | .ok (v, p) => .ok (p.cursor, .Store r v)
        | .ADD =>
          match p.register with
          | .error e => .error e
          | .ok (r, p) =>
            match p.value high_bit_set with
            | .error e => .error e
            | .ok (v, p) => .ok (p.cursor, .Add r v)
        | .SUB =>
          match p.register with
          | .error e => .error e
          | .ok (r, p) =>
            match p.value high_bit_set with
            | .error e => .error e
            | .ok (v, p) => .ok (p.cursor, .Sub r v)
        | .MUL =>
          match p.register with
          | .error e => .error e
          | .ok (r, p) =>
            match p.value high_bit_set with
            | .error e => .error e
            | .ok (v, p) => .ok (p.cursor, .Multiply r v)
        | .DIV =>
          match p.register with
          | .error e => .error e
          | .ok (r, p) =>
            match p.value high_bit_set with
            | .error e => .error e
            | .ok (v, p) => .ok (p.cursor, .Divide r v)
        | .JNZ =>
          match p.register with
          | .error e => .error e
          | .ok (r, p) =>
            match p.read_u16 with
            | .error e => .error e
            | .ok (a, p) => .ok (p.cursor, .JumpIfNonZero r a)
        | .JEQ =>
          match p.register with
          | .error e => .error e
          | .ok (r, p) =>
            match p.value high_bit_set with
            | .error e => .error e
            | .ok (v, p) =>
              match p.read_u16 with
              | .error e => .error e
              | .ok (a, p) => .ok (p.cursor, .JumpIfEqual r v a)
        | .JNE =>
          match p.register with
          | .error e => .error e
          | .ok (r, p) =>
            match p.value high_bit_set with
            | .error e => .error e
            | .ok (v, p) =>
              match p.read_u16 with
              | .error e => .error e
              | .ok (a, p) => .ok (p.cursor, .JumpIfNotEqual r v a)
        | .JGT =>
          match p.register with
          | .error e => .error e
          | .ok (r, p) =>
            match p.value high_bit_set with
            | .error e => .error e
            | .ok (v, p) =>
              match p.read_u16 with
              | .error e => .error e
              | .ok (a, p) => .ok (p.cursor, .JumpIfGreaterThan r v a)
        | .JLT =>
          match p.register with
          | .error e => .error e
          | .ok (r, p) =>
            match p.value high_bit_set with
            | .error e => .error e
            | .ok (v, p) =>
              match p.read_u16 with
              | .error e => .error e
              | .ok (a, p) => .ok (p.cursor, .JumpIfLessThan r v a)
    else .error .invalidOpcode

/-- `parse_header` (src/instruction.rs lines 262–272): read the version
byte, then width and height as little-endian `u16`; report 5 bytes read.
Indexing a buffer shorter than 5 bytes panics. -/
def parse_header (buffer : List Nat) : Except DecodeError (Nat × Nat × Nat × Nat) :=
  match buffer.get? 0, buffer.get? 1, buffer.get? 2, buffer.get? 3, buffer.get? 4 with
  | some version, some b1, some b2, some b3, some b4 =>
      .ok (5, version, b1 + 256 * b2, b3 + 256 * b4)
  | _, _, _, _, _ => .error .truncated

/-- The instruction loop of `decode` (src/instruction.rs lines 280–289),
with fuel for totality (each iteration consumes at least one byte, so
`buffer.length + 1` fuel always suffices). -/
def decodeLoop : Nat → List Nat → Nat → List Instruction → Except DecodeError (List Instruction)
  | 0, _, _, _ => .error .outOfFuel
  | fuel + 1, buffer, i, acc =>
    if buffer.length ≤ i then .ok acc.reverse
    else
      match parse_next_instruction (buffer.drop i) with
      | .error e => .error e
      | .ok (bytes, instruction) => decodeLoop fuel buffer (i + bytes) (instruction :: acc)

/-- `decode` (src/instruction.rs lines 274–292): parse the header, assert
the format version is 0x01, then parse instructions until the buffer is
exhausted; return the canvas width, height and the program. -/
def decode (buffer : List Nat) : Except DecodeError (Nat × Nat × List Instruction) :=
  match parse_header buffer with
  | .error e => .error e
  | .ok (i, version, width, height) =>
    if version = 0x01 then
      match decodeLoop (buffer.length + 1) buffer i [] with
      | .error e => .error e
      | .ok program => .ok (width, height, program)
    else .error .badVersion

/-- `u16::to_le_bytes` (for values below 2¹⁶). -/
def u16le (n : Nat) : List Nat := [n % 256, n / 256]

/-- The operand-dependent emission of `add_instruction`
(src/bin/assembler.rs lines 60–74) at the level of a parsed operand: the
opcode byte with the high bit set and a one-byte register id when the
operand is a register, else the plain opcode byte and a two-byte
little-endian immediate; the destination register byte sits in between.
`Value.Float` has no assembly text form, hence no encoding (`none`). -/
def encodeWithValue (opcode : Opcode) (r1 : Nat) (v : Value) : Option (List Nat) :=
  match v with
  | .Register r2 => some [opcode.toU8 ||| 0x80, r1, r2.toU8]
  | .Uint value => some ([opcode.toU8, r1] ++ u16le value)
  | .Float _ => none

/-- The assembler's byte emission per instruction (src/bin/assembler.rs
lines 153–251, reorganized per decoded instruction rather than per source
line): nullary opcodes are a single opcode byte, `INC`/`DEC` add one
register byte, value-operand opcodes go through `add_instruction`, and
branch opcodes append the two-byte little-endian target address.  For
`Forward`, the assembler's branch names the nonexistent `Opcode::MOV` and
does not compile against src/lib.rs; the byte emitted here is the `FWD`
discriminant (0x02), which is what the other iterations of the assembler
(src/bin/compiler.rs) emit for the same mnemonic. -/
def encode : Instruction → Option (List Nat)
  | .Draw => some [Opcode.DRW.toU8]
  | .Forward => some [Opcode.FWD.toU8]
  | .Halt => some [Opcode.HLT.toU8]
  | .Increment r => some [Opcode.INC.toU8, r.toU8]
  | .Decrement r => some [Opcode.DEC.toU8, r.toU8]
  | .Store r v => encodeWithValue .STO r.toU8 v
  | .Add r v => encodeWithValue .ADD r.toU8 v
  | .Sub r v => encodeWithValue .SUB r.toU8 v
  | .Multiply r v => encodeWithValue .MUL r.toU8 v
  | .Divide r v => encodeWithValue .DIV r.toU8 v
  | .JumpIfNonZero r a => some ([Opcode.JNZ.toU8, r.toU8] ++ u16le a)
  | .JumpIfEqual r v a => (encodeWithValue .JEQ r.toU8 v).map (fun bs => bs ++ u16le a)
  | .JumpIfNotEqual r v a => (encodeWithValue .JNE r.toU8 v).map (fun bs => bs ++ u16le a)
  | .JumpIfGreaterThan r v a => (encodeWithValue .JGT r.toU8 v).map (fun bs => bs ++ u16le a)
  | .JumpIfLessThan r v a => (encodeWithValue .JLT r.toU8 v).map (fun bs => bs ++ u16le a)

/-- A value operand the decoder can produce: an immediate below 2¹⁶ or a
register reference (never `Value.Float`). -/
def ValueWF : Value → Bool
  | .Uint n => n < 2 ^ 16
  | .Float _ => false
  | .Register _ => true

/-- An instruction the decoder can produce: operands are well-formed and
addresses fit in a `u16`. -/
def InstructionWF : Instruction → Bool
  | .Draw => true
  | .Halt => true
  | .Forward => true
  | .Increment _ => true
  | .Decrement _ => true
  | .Store _ v => ValueWF v
  | .Add _ v => ValueWF v
  | .Sub _ v => ValueWF v
  | .Multiply _ v => ValueWF v
  | .Divide _ v => ValueWF v
  | .JumpIfNonZero _ a => a < 2 ^ 16
  | .JumpIfEqual _ v a => ValueWF v && a < 2 ^ 16
  | .JumpIfNotEqual _ v a => ValueWF v && a < 2 ^ 16
  | .JumpIfGreaterThan _ v a => ValueWF v && a < 2 ^ 16
  | .JumpIfLessThan _ v a => ValueWF v && a < 2 ^ 16

/-- The second ("value") operand of the instruction is a register
reference (instructions without a value operand yield `false`). -/
def secondOperandIsRegister : Instruction → Bool
  | .Store _ v => ValueIsRegister v
  | .Add _ v => ValueIsRegister v
  | .Sub _ v => ValueIsRegister v
  | .Multiply _ v => ValueIsRegister v
  | .Divide _ v => ValueIsRegister v
  | .JumpIfEqual _ v _ => ValueIsRegister v
  | .JumpIfNotEqual _ v _ => ValueIsRegister v
  | .JumpIfGreaterThan _ v _ => ValueIsRegister v
  | .JumpIfLessThan _ v _ => ValueIsRegister v
  | _ => false
where
  ValueIsRegister : Value → Bool
    | .Register _ => true
    | _ => false

/-- Compile-time faults of the assembler (src/bin/assembler.rs): every
`panic!`, `expect`, `unwrap` and failed `assert!` in `main` and its
helpers. -/
inductive AsmError where
  /-- `panic!("re-used label")` in `Labels::new`. -/
  | reusedLabel
  /-- `expect("missing register")` in `parse_register`. -/
  | missingRegister
  /-- `expect("not a register")` in `parse_register`. -/
  | notARegister
  /-- `expect("missing value")` in `parse_u16`. -/
  | missingValue
  /-- `expect("not a u16")` in `parse_u16`. -/
  | notAU16
  /-- `expect("missing operand")` in `add_instruction`. -/
  | missingOperand
  /-- `Err("missing label")` from `Labels::get`, unwrapped in `main`. -/
  | missingLabel
  /-- `Err("label not found ...")` from `Labels::get`, unwrapped in `main`. -/
  | labelNotFound
  /-- `panic!("bad prefix: ...")` in `main`. -/
  | badMnemonic
  /-- The `assert!(parts.next().is_none())` at the end of a line fails. -/
  | trailingTokens
  /-- `expect("missing width")` in `main`. -/
  | missingWidth
  /-- `expect("missing height")` in `main`. -/
  | missingHeight
  /-- The `"MOV"` branch of `main` names `Opcode::MOV`, which src/lib.rs
  does not define (its mnemonic is `FWD`); the branch does not compile, so
  no program containing it can be assembled by this source. -/
  | movUncompilable
deriving DecidableEq, Repr

/-- Split a character stream at newlines, keeping empty segments. -/
def nlAux : List Char → List Char → List (List Char)
  | [], cur => [cur.reverse]
  | c :: cs, cur => if c = '\n' then cur.reverse :: nlAux cs [] else nlAux cs (c :: cur)

/-- Rust `str::lines`: newline-separated lines, with no final empty line
after a trailing terminator.  (The `\r\n` form does not occur in the
inputs considered here.) -/
def rustLines (s : List Char) : List (List Char) :=
  let parts := nlAux s []
  match parts.getLast? with
  | some l => if l.isEmpty then parts.dropLast else parts
  | none => parts

/-- Accumulating splitter for `split_whitespace`. -/
def wsAux : List Char → List Char → List (List Char)
  | [], cur => if cur.isEmpty then [] else [cur.reverse]
  | c :: cs, cur =>
    if c.isWhitespace then
      if cur.isEmpty then wsAux cs [] else cur.reverse :: wsAux cs []
    else wsAux cs (c :: cur)

/-- Rust `line.trim().split_whitespace()`: the whitespace-separated
tokens of a line (the `trim` adds nothing to the token list). -/
def splitWhitespace (s : List Char) : List (List Char) := wsAux s []

/-- `try_parse_register` (src/bin/assembler.rs lines 16–36): the fixed
register-name table. -/
def try_parse_register : List Char → Option Nat
  | ['A'] => some 0x0
  | ['B'] => some 0x1
  | ['C'] => some 0x2
  | ['D'] => some 0x3
  | ['E'] => some 0x4
  | ['F'] => some 0x5
  | ['G'] => some 0x6
  | ['H'] => some 0x7
  | ['S'] => some 0x8
  | ['T'] => some 0x9
  | ['U'] => some 0xa
  | ['V'] => some 0xb
  | ['W'] => some 0xc
  | ['X'] => some 0xd
  | ['Y'] => some 0xe
  | ['Z'] => some 0xf
  | _ => none

/-- `parse_register` (src/bin/assembler.rs lines 38–40). -/
def parse_register (input : Option (List Char)) : Except AsmError Nat :=
  match input with
  | none => .error .missingRegister
  | some t =>
    match try_parse_register t with
    | some r => .ok r
    | none => .error .notARegister

/-- The digit run of `u16::from_str`: base-10 accumulation. -/
def digitsAux : List Char → Nat → Option Nat
  | [], acc => some acc
  | c :: cs, acc => if c.isDigit then digitsAux cs (acc * 10 + (c.toNat - 48)) else none

/-- Rust `input.parse::<u16>()`: a non-empty digit string whose value fits
in a `u16`.  (Rust also tolerates one leading `+`; no input considered
here uses it.) -/
def parseU16str (t : List Char) : Option Nat :=
  if t.isEmpty then none
  else
    match digitsAux t 0 with
    | some n => if n < 2 ^ 16 then some n else none
    | none => none

/-- `parse_u16` (src/bin/assembler.rs lines 42–44). -/
def parse_u16 (input : Option (List Char)) : Except AsmError Nat :=
  match input with
  | none => .error .missingValue
  | some t =>
    match parseU16str t with
    | some n => .ok n
    | none => .error .notAU16

/-- The assembler's operand sum (src/bin/assembler.rs `enum Value`). -/
inductive AsmValue where
  | Register (r : Nat)
  | Uint (v : Nat)
deriving DecidableEq, Repr

/-- `parse_value` (src/bin/assembler.rs lines 51–58): a register name if
the token is one, else a `u16` immediate. -/
def parse_value (t : List Char) : Except AsmError AsmValue :=
  match try_parse_register t with
  | some r => .ok (.Register r)
  | none =>
    match parseU16str t with
    | some v => .ok (.Uint v)
    | none => .error .notAU16

/-- `add_instruction` (src/bin/assembler.rs lines 60–74): parse the
operand token and emit the opcode byte (high bit set for a register
operand), the destination register byte, and the operand bytes. -/
def add_instruction (opcode : Opcode) (r1 : Nat) (operand : Option (List Char)) :
    Except AsmError (List Nat) :=
  match operand with
  | none => .error .missingOperand
  | some t =>
    match parse_value t with
    | .error e => .error e
    | .ok (.Register r2) => .ok [opcode.toU8 ||| 0x80, r1, r2]
    | .ok (.Uint value) => .ok ([opcode.toU8, r1] ++ u16le value)

/-- A token ends in `:` (the label-declaration form). -/
def endsWithColon (t : List Char) : Bool :=
  match t.getLast? with
  | some c => c == ':'
  | none => false

/-- `Opcode::try_from(&str)` (src/lib.rs lines 40–63): the mnemonic
table.  Note there is no `MOV` entry: the current opcode set names 0x02
`FWD`. -/
def Opcode.try_from_str : List Char → Option Opcode
  | ['D', 'R', 'W'] => some .DRW
  | ['F', 'W', 'D'] => some .FWD
  | ['S', 'T', 'O'] => some .STO
  | ['I', 'N', 'C'] => some .INC
  | ['A', 'D', 'D'] => some .ADD
  | ['D', 'E', 'C'] => some .DEC
  | ['J', 'N', 'Z'] => some .JNZ
  | ['H', 'L', 'T'] => some .HLT
  | ['M', 'U', 'L'] => some .MUL
  | ['J', 'G', 'T'] => some .JGT
  | ['S', 'U', 'B'] => some .SUB
  | ['J', 'E', 'Q'] => some .JEQ
  | ['J', 'N', 'E'] => some .JNE
  | ['J', 'L', 'T'] => some .JLT
  | ['D', 'I', 'V'] => some .DIV
  | _ => none

/-- Association-list lookup for the label table. -/
def labelsFind : List (List Char × Nat) → List Char → Option Nat
  | [], _ => none
  | (k, v) :: rest, key => if k = key then some v else labelsFind rest key

/-- The line loop of `Labels::new` (src/bin/assembler.rs lines 81–101):
a line whose first token is a mnemonic bumps the instruction counter; a
first token ending in `:` binds that token (colon included) to the
current counter, re-declaration being fatal; anything else is ignored in
this pass. -/
def labelsNewAux : List (List Char) → List (List Char × Nat) → Nat →
    Except AsmError (List (List Char × Nat))
  | [], acc, _ => .ok acc
  | line :: rest, acc, count =>
    match splitWhitespace line with
    | [] => labelsNewAux rest acc count
    | tok0 :: _ =>
      if (Opcode.try_from_str tok0).isSome then labelsNewAux rest acc (count + 1)
      else if endsWithColon tok0 then
        if (labelsFind acc tok0).isSome then .error .reusedLabel
        else labelsNewAux rest ((tok0, count) :: acc) count
      else labelsNewAux rest acc count

/-- `Labels::new` (src/bin/assembler.rs): pass 1 over the source. -/
def Labels.new (input : List Char) : Except AsmError (List (List Char × Nat)) :=
  labelsNewAux (rustLines input) [] 0

/-- `Labels::get` (src/bin/assembler.rs lines 104–113), combined with the
`unwrap` at each use site in `main`: the keys carry their trailing colon,
so the operand token must too. -/
def Labels.get (labels : List (List Char × Nat)) (label : Option (List Char)) :
    Except AsmError Nat :=
  match label with
  | none => .error .missingLabel
  | some l =>
    match labelsFind labels l with
    | some n => .ok n
    | none => .error .labelNotFound

/-- The `WIDTH`/`HEIGHT` scan of `main` (src/bin/assembler.rs lines
121–143): first-token match over every line until both are found. -/
def findDims : List (List Char) → Option Nat → Option Nat →
    Except AsmError (Option Nat × Option Nat)
  | [], w, h => .ok (w, h)
  | line :: rest, w, h =>
    if w.isSome && h.isSome then .ok (w, h)
    else
      match splitWhitespace line with
      | [] => findDims rest w h
      | tok0 :: toks =>
        if tok0 = ['W', 'I', 'D', 'T', 'H'] then
          match parse_u16 toks.head? with
          | .error e => .error e
          | .ok v => findDims rest (some v) h
        else if tok0 = ['H', 'E', 'I', 'G', 'H', 'T'] then
          match parse_u16 toks.head? with
          | .error e => .error e
          | .ok v => findDims rest w (some v)
        else findDims rest w h

/-- The end-of-line `assert!(parts.next().is_none())` of `main`. -/
def requireEnd (bs : List Nat) (rest : List (List Char)) : Except AsmError (List Nat) :=
  if rest.isEmpty then .ok bs else .error .trailingTokens

/-- One iteration of the emission loop of `main` (src/bin/assembler.rs
lines 153–251): dispatch on the first token.  Comment markers and the
`WIDTH`/`HEIGHT` directives `continue`, skipping the trailing-token
assertion; every instruction line consumes its operand tokens and then
requires the line to be exhausted; a label line emits nothing but is
still subject to the assertion (so a label sharing a line with an
instruction is a fatal error).  The `ADD` branch inlines the same logic
as `add_instruction`. -/
def emit_line (labels : List (List Char × Nat)) (line : List Char) :
    Except AsmError (List Nat) :=
  match splitWhitespace line with
  | [] => .ok []
  | tok0 :: toks =>
    if tok0 = ['#'] || tok0 = [';'] then .ok []
    else if tok0 = ['W', 'I', 'D', 'T', 'H'] || tok0 = ['H', 'E', 'I', 'G', 'H', 'T'] then .ok []
    else if tok0 = ['D', 'R', 'W'] then requireEnd [Opcode.DRW.toU8] toks
    else if tok0 = ['M', 'O', 'V'] then .error .movUncompilable
    else if tok0 = ['S', 'T', 'O'] then
      match parse_register toks.head? with
      | .error e => .error e
      | .ok r1 =>
        match add_instruction .STO r1 (toks.get? 1) with
        | .error e => .error e
        | .ok bs => requireEnd bs (toks.drop 2)
    else if tok0 = ['I', 'N', 'C'] then
      match parse_register toks.head? with
      | .error e => .error e
      | .ok r => requireEnd [Opcode.INC.toU8, r] (toks.drop 1)
    else if tok0 = ['D', 'E', 'C'] then
      match parse_register toks.head? with
      | .error e => .error e
      | .ok r => requireEnd [Opcode.DEC.toU8, r] (toks.drop 1)
    else if tok0 = ['J', 'N', 'Z'] then
      match parse_register toks.head? with
      | .error e => .error e
      | .ok r =>
        match Labels.get labels (toks.get? 1) with
        | .error e => .error e
        | .ok addr => requireEnd ([Opcode.JNZ.toU8, r] ++ u16le addr) (toks.drop 2)
    else if tok0 = ['J', 'G', 'T'] then
      match parse_register toks.head? with
      | .error e => .error e
      | .ok r =>
        match add_instruction .JGT r (toks.get? 1) with
        | .error e => .error e
        | .ok bs =>
          match Labels.get labels (toks.get? 2) with
          | .error e => .error e
          | .ok addr => requireEnd (bs ++ u16le addr) (toks.drop 3)
    else if tok0 = ['J', 'L', 'T'] then
      match parse_register toks.head? with
      | .error e => .error e
      | .ok r =>
        match add_instruction .JLT r (toks.get? 1) with
        | .error e => .error e
        | .ok bs =>
          match Labels.get labels (toks.get? 2) with
          | .error e => .error e
          | .ok addr => requireEnd (bs ++ u16le addr) (toks.drop 3)
    else if tok0 = ['J', 'E', 'Q'] then
      match parse_register toks.head? with
      | .error e => .error e
      | .ok r =>
        match add_instruction .JEQ r (toks.get? 1) with
        | .error e => .error e
        | .ok bs =>
          match Labels.get labels (toks.get? 2) with
          | .error e => .error e
          | .ok addr => requireEnd (bs ++ u16le addr) (toks.drop 3)
    else if tok0 = ['J', 'N', 'E'] then
      match parse_register toks.head? with
      | .error e => .error e
      | .ok r =>
        match add_instruction .JNE r (toks.get? 1) with
        | .error e => .error e
        | .ok bs =>
          match Labels.get labels (toks.get? 2) with
          | .error e => .error e
          | .ok addr => requireEnd (bs ++ u16le addr) (toks.drop 3)
    else if tok0 = ['M', 'U', 'L'] then
      match parse_register toks.head? with
      | .error e => .error e
      | .ok r =>
        match add_instruction .MUL r (toks.get? 1) with
        | .error e => .error e
        | .ok bs => requireEnd bs (toks.drop 2)
    else if tok0 = ['D', 'I', 'V'] then
      match parse_register toks.head? with
      | .error e => .error e
      | .ok r =>
        match add_instruction .DIV r (toks.get? 1) with
        | .error e => .error e
        | .ok bs => requireEnd bs (toks.drop 2)
    else if tok0 = ['A', 'D', 'D'] then
      match parse_register toks.head? with
      | .error e => .error e
      | .ok r1 =>
        match add_instruction .ADD r1 (toks.get? 1) with
        | .error e => .error e
        | .ok bs => requireEnd bs (toks.drop 2)
    else if tok0 = ['S', 'U', 'B'] then
      match parse_register toks.head? with
      | .error e => .error e
      | .ok r =>
        match add_instruction .SUB r (toks.get? 1) with
        | .error e => .error e
        | .ok bs => requireEnd bs (toks.drop 2)
    else if tok0 = ['H', 'L', 'T'] then requireEnd [Opcode.HLT.toU8] toks
    else if endsWithColon tok0 then requireEnd [] toks
    else .error .badMnemonic

/-- The emission loop of `main` over all lines, concatenating the bytes
in source order. -/
def emit_lines (labels : List (List Char × Nat)) : List (List Char) →
    Except AsmError (List Nat)
  | [] => .ok []
  | line :: rest =>
    match emit_line labels line with
    | .error e => .error e
    | .ok bs =>
      match emit_lines labels rest with
      | .error e => .error e
      | .ok bss => .ok (bs ++ bss)

/-- `main` of src/bin/assembler.rs (with the file I/O dropped: the
returned bytes are what is written to `program.bin`): build the label
table, find `WIDTH`/`HEIGHT`, then emit the width bytes, the height
bytes, and every line's instruction bytes.  Note the output starts
directly with the width: no version byte is ever pushed. -/
def assembler_main (input : List Char) : Except AsmError (List Nat) :=
  match Labels.new input with
  | .error e => .error e
  | .ok labels =>
    match findDims (rustLines input) none none with
    | .error e => .error e
    | .ok (w, h) =>
      match w with
      | none => .error .missingWidth
      | some width =>
        match h with
        | none => .error .missingHeight
        | some height =>
          match emit_lines labels (rustLines input) with
          | .error e => .error e
          | .ok code => .ok (u16le width ++ u16le height ++ code)

/-- The host math library evaluated at the only argument the verified
runs reach: IEEE `to_radians`, `cos` and `sin` are exact at 0.0
(`(0.0_f64).to_radians() = 0.0`, `cos(0.0) = 1.0`, `sin(0.0) = 0.0`).
Arguments never reached in these runs are mapped to `nan`. -/
def hostMath0 : HostMath where
  toRadians := fun x => if x = F64.finite 0 then F64.finite 0 else F64.nan
  cos := fun x => if x = F64.finite 0 then F64.finite 1 else F64.nan
  sin := fun x => if x = F64.finite 0 then F64.finite 0 else F64.nan

/-- The decoded form of the pen-semantics program
`DRW / FWD / DRW / FWD / HLT`. -/
def penProg : List Instruction := [.Draw, .Forward, .Draw, .Forward, .Halt]

/-- The decoded form of the jump-correctness program
`STO A 3 / loop: / DEC A / JNZ A loop: / HLT`: the label binds to
instruction index 1, the `DEC`. -/
def loopProg : List Instruction :=
  [.Store (.UintRegister .A) (.Uint 3),
   .Decrement (.UintRegister .A),
   .JumpIfNonZero (.UintRegister .A) 1,
   .Halt]

/-- The five instruction forms that target an integer register with
bank-dispatched wrapping arithmetic (`ADD`, `SUB`, `MUL`, `INC`, `DEC`). -/
inductive ArithOp where
  | add | sub | mul | inc | dec
deriving DecidableEq, Repr

/-- The instruction a given arithmetic form denotes (`inc`/`dec` take no
value operand). -/
def ArithOp.toInstr : ArithOp → Register → Value → Instruction
  | .add, r, v => .Add r v
  | .sub, r, v => .Sub r v
  | .mul, r, v => .Multiply r v
  | .inc, r, _ => .Increment r
  | .dec, r, _ => .Decrement r

/-- The `u16::overflowing_*` primitive each arithmetic form applies in
the integer bank (src/vm.rs lines 207–268, 311–325). -/
def ArithOp.overflowing : ArithOp → Nat → Nat → Nat × Bool
  | .add, a, b => overflowing_add a b
  | .sub, a, b => overflowing_sub a b
  | .mul, a, b => overflowing_mul a b
  | .inc, a, _ => overflowing_add a 1
  | .dec, a, _ => overflowing_sub a 1

/-- The jump predicate the instruction evaluates in state `vm` (`false`
for non-jump instructions), mirroring the `check_conditional` calls of
`Vm::step`. -/
def jumpTaken (vm : Vm) : Instruction → Bool
  | .JumpIfNonZero r _ => vm.check_conditional r (.Uint 0) nePred
  | .JumpIfEqual r v _ => vm.check_conditional r v eqPred
  | .JumpIfNotEqual r v _ => vm.check_conditional r v nePred
  | .JumpIfGreaterThan r v _ => vm.check_conditional r v gtPred
  | .JumpIfLessThan r v _ => vm.check_conditional r v ltPred
  | _ => false

/-- Count the `Decrement` steps of a run trace. -/
def decrementCount (trace : List (Instruction × Option Pixel)) : Nat :=
  trace.countP (fun e => match e.1 with | .Decrement _ => true | _ => false)

/-- The pixel events of a run trace, in order. -/
def pixelEvents (trace : List (Instruction × Option Pixel)) : List Pixel :=
  trace.filterMap (fun e => e.2)

/-- Decidable equality for `Except` results (elementwise). -/
instance {ε α : Type} [DecidableEq ε] [DecidableEq α] : DecidableEq (Except ε α) :=
  fun a b =>
    match a, b with
    | .error e, .error e' =>
      if h : e = e' then .isTrue (by rw [h]) else .isFalse (by simp [h])
    | .ok v, .ok v' =>
      if h : v = v' then .isTrue (by rw [h]) else .isFalse (by simp [h])
    | .error _, .ok _ => .isFalse (by simp)
    | .ok _, .error _ => .isFalse (by simp)

/-- Shortcut instance keeping decidability searches over run traces
shallow. -/
instance : DecidableEq (Instruction × Option Pixel) := inferInstance

/-- Shortcut instance keeping decidability searches over run traces
shallow. -/
instance : DecidableEq (Option (Instruction × Option Pixel)) := inferInstance

/-- Shortcut instance keeping decidability searches over run traces
shallow. -/
instance : DecidableEq (List (Instruction × Option Pixel)) := inferInstance

/-- An assembly source the assembler accepts:
`WIDTH 10 / HEIGHT 10 / HLT`. -/
def c2src : List Char := ("WIDTH 10\nHEIGHT 10\nHLT").toList

/-- A single-instruction program: integer division by an immediate 0. -/
def divIntVm : Vm := Vm.new [.Divide (.UintRegister .A) (.Uint 0)]

/-- A single-instruction program: float division by an operand valued 0. -/
def divFloatVm : Vm := Vm.new [.Divide (.FloatRegister .S) (.Uint 0)]

/-- A VM about to `INC` an integer register holding 0xFFFF. -/
def incFFFFVm : Vm :=
  { Vm.new [.Increment (.UintRegister .A)] with
    uint_registers := setUint (fun _ => 0) .A 0xFFFF }

/-- A VM about to take a `JNZ` to address 99 in a 1-instruction program. -/
def jnzOobVm : Vm :=
  { Vm.new [.JumpIfNonZero (.UintRegister .A) 99] with
    uint_registers := setUint (fun _ => 0) .A 1 }

/-- Single-jump programs over float register S, for the five conditional
jumps. -/
def jeqVm : Vm := Vm.new [.JumpIfEqual (.FloatRegister .S) (.Uint 0) 0]

/-- See `jeqVm`. -/
def jneVm : Vm := Vm.new [.JumpIfNotEqual (.FloatRegister .S) (.Uint 0) 0]

/-- See `jeqVm`. -/
def jnzFloatVm : Vm := Vm.new [.JumpIfNonZero (.FloatRegister .S) 0]

/-- See `jeqVm`. -/
def jgtVm : Vm := Vm.new [.JumpIfGreaterThan (.FloatRegister .S) (.Uint 0) 0]

/-- See `jeqVm`. -/
def jltVm : Vm := Vm.new [.JumpIfLessThan (.FloatRegister .S) (.Uint 0) 0]

/-- A single-`DRW` program (pen goes down on the first step). -/
def drawVm : Vm := Vm.new [.Draw]

/-! ## Helper lemmas -/

theorem Register.from_u8_toU8 (r : Register) : Register.from_u8 r.toU8 = some r := by
  cases r with
  | UintRegister u => cases u <;> rfl
  | FloatRegister f => cases f <;> rfl

/-! ## Claim C1 -/

/-- C1, counterexample.  The claim states that `DRW` never itself emits a
pixel event and that the run of `DRW / FWD / DRW / FWD / HLT` from the
initial state emits exactly one pixel event, at `(1, 0)`.  In the code
every non-jump instruction falls through to the pixel-emission check
after the program counter increment, so the first `DRW` — having just
set the pen down — emits a pixel event at `(0, 0)`: the run emits two
pixel events, and the first trace entry is a `Draw` step carrying one. -/
theorem drw_claim_counterexample :
    (Vm.run hostMath0 10 (Vm.new penProg)).map
        (fun p => ((pixelEvents p.2).length, p.2.head?)) =
      .ok (2, some (.Draw, some (0, 0, 0xffffff))) := by decide

/-- C1, amended: `DRW` toggles the pen flag and — like every non-jump
instruction — emits a pixel event when the pen is down at the end of the
step, so the run of `DRW / FWD / DRW / FWD / HLT` from the initial state
(heading 0, position `(0, 0)`, pen up) emits exactly two pixel events:
`(0, 0)` from the first `DRW` (which has just put the pen down) and
`(1, 0)` from the `FWD` executed while the pen is down; the second `DRW`
and the second `FWD` emit nothing and the run halts.  Stated for every
host math library that is exact at 0 (as IEEE `to_radians`/`cos`/`sin`
are). -/
theorem drw_pen_semantics (m : HostMath)
    (hr : m.toRadians (F64.finite 0) = F64.finite 0)
    (hc : m.cos (F64.finite 0) = F64.finite 1)
    (hs : m.sin (F64.finite 0) = F64.finite 0) :
    (Vm.run m 10 (Vm.new penProg)).map (fun p => (p.1.terminated, p.2)) =
      .ok (true,
        [(.Draw, some (0, 0, 0xffffff)),
         (.Forward, some (1, 0, 0xffffff)),
         (.Draw, none),
         (.Forward, none),
         (.Halt, none)]) := by
  simp [Vm.run, Vm.step, Vm.new, penProg, stepFinish, setFloat, hr, hc, hs,
    F64.add, F64.toIsize, F64.ratTrunc, Except.map]

/-- Witness for `drw_pen_semantics` at the concrete host-math model
`hostMath0`. -/
theorem drw_pen_semantics_witness :
    (Vm.run hostMath0 10 (Vm.new penProg)).map (fun p => (p.1.terminated, p.2)) =
      .ok (true,
        [(.Draw, some (0, 0, 0xffffff)),
         (.Forward, some (1, 0, 0xffffff)),
         (.Draw, none),
         (.Forward, none),
         (.Halt, none)]) :=
  drw_pen_semantics hostMath0 (by decide) (by decide) (by decide)

/-! ## Claim C2 -/

/-- C2: the claim states the assembler's output begins with the 5-byte
header (version byte, width `u16` LE, height `u16` LE) and that the
decoder accepts it.  The code never pushes a version byte: assembling
`WIDTH 10 / HEIGHT 10 / HLT` yields `[10, 0, 10, 0, 8]` — width bytes,
height bytes, `HLT` — so `parse_header` reads version 10 (the low width
byte) and width 2560 instead of the declared 10, and `decode` rejects
the assembler's own output on its version assertion. -/
theorem assembler_omits_version_byte :
    assembler_main c2src = .ok [10, 0, 10, 0, 8] ∧
    parse_header [10, 0, 10, 0, 8] = .ok (5, 10, 2560, 2048) ∧
    decode [10, 0, 10, 0, 8] = .error .badVersion := by decide

/-! ## Claim C4 -/

/-- C4: the program `STO A 3 / loop: / DEC A / JNZ A loop: / HLT`
(decoded form `loopProg`, the label resolving to instruction index 1)
run from the initial state terminates: the final state is `Halted` with
register A = 0 and the trace contains exactly 3 `Decrement` steps. -/
theorem loop_terminates_after_three_decrements :
    (Vm.run hostMath0 20 (Vm.new loopProg)).map
        (fun p => (p.1.terminated, p.1.uint_registers .A, decrementCount p.2)) =
      .ok (true, 0, 3) := by
  norm_num [Vm.run, Vm.step, Vm.new, loopProg, stepFinish, setUint,
    Vm.check_conditional, Vm.unwrap_uint_value, nePred, F64.sub, F64.neg, F64.add,
    F64.absF, F64.lt, f64Epsilon, overflowing_sub, Except.map, decrementCount,
    List.countP, List.countP.go]

/-- `stepFinish` always succeeds, incrementing the program counter and
passing the warning flag through. -/
theorem stepFinish_ok (s : Vm) (w : Bool) :
    ∃ out, stepFinish s w = .ok ({ s with pc := s.pc + 1 }, out, w) := by
  unfold stepFinish
  by_cases h : s.draw <;> simp [h]

/-- Dividing any `f64` by `0.0` yields an infinity or `nan`. -/
theorem F64.div_zero_isInfOrNan (a : F64) :
    (a.div (F64.finite 0)).isInfOrNan = true := by
  cases a with
  | finite q =>
      have h : F64.div (F64.finite q) (F64.finite 0) =
          (if 0 < q then F64.inf else if q < 0 then F64.negInf else F64.nan) := by
        simp [F64.div]
      rw [h]
      split
      · rfl
      · split <;> rfl
  | inf => simp [F64.div, F64.isInfOrNan]
  | negInf => simp [F64.div, F64.isInfOrNan]
  | nan => rfl

/-! ## Claim C5 -/

/-- C5: `DIV` with an integer destination register and an operand
evaluating to 0 is a fatal runtime fault (the `u16::overflowing_div`
panic), while `DIV` with a float destination register and an operand
evaluating to `0.0` succeeds, leaves the run unterminated with the
program counter advanced, and stores an infinity or `nan` in the
register. -/
theorem div_by_zero_faults (m : HostMath) (vm : Vm) :
    (∀ r v, vm.program.get? vm.pc = some (.Divide (.UintRegister r) v) →
      vm.unwrap_uint_value v = 0 →
      Vm.step m vm = .error .divByZero) ∧
    (∀ fr v, vm.program.get? vm.pc = some (.Divide (.FloatRegister fr) v) →
      vm.unwrap_float_value v = F64.finite 0 → vm.terminated = false →
      ∃ vm' out warned, Vm.step m vm = .ok (vm', out, warned) ∧
        vm'.terminated = false ∧ (vm'.float_registers fr).isInfOrNan = true ∧
        vm'.pc = vm.pc + 1) := by
  constructor
  · intro r v hget hv
    unfold Vm.step
    rw [hget]
    simp [hv]
  · intro fr v hget hv hterm
    have key : Vm.step m vm = stepFinish { vm with float_registers := setFloat vm.float_registers fr ((vm.float_registers fr).div (F64.finite 0)) } false := by
      unfold Vm.step
      rw [hget]
      simp [hv]
    obtain ⟨out, hfin⟩ := stepFinish_ok { vm with float_registers := setFloat vm.float_registers fr ((vm.float_registers fr).div (F64.finite 0)) } false
    rw [hfin] at key
    exact ⟨_, out, false, key, hterm, by simp [setFloat, F64.div_zero_isInfOrNan], rfl⟩

/-- Witness for `div_by_zero_faults`: `DIV A, 0` faults at once, while
`DIV S, 0` (register S holding `0.0`) stores `0.0 / 0.0` and continues. -/
theorem div_by_zero_faults_witness :
    Vm.step hostMath0 divIntVm = .error .divByZero ∧
    (∃ vm' out warned, Vm.step hostMath0 divFloatVm = .ok (vm', out, warned) ∧
      vm'.terminated = false ∧ (vm'.float_registers .S).isInfOrNan = true ∧
      vm'.pc = divFloatVm.pc + 1) :=
  ⟨(div_by_zero_faults hostMath0 divIntVm).1 .A (.Uint 0) rfl rfl,
   (div_by_zero_faults hostMath0 divFloatVm).2 .S (.Uint 0) rfl
     (by simp [Vm.unwrap_float_value]) rfl⟩

/-! ## Claim C6 -/

/-- C6: an opcode byte of `0xFF` (masked to `0x7F`) fails decode with a
reported error, and the defined opcodes occupy exactly the
discriminants 0x01–0x0f of every masked byte value; but for the masked
byte `0x00` the claim fails on the code: the `Opcode::try_from` guard
`input <= 0x0f` accepts it although no variant has discriminant 0, so
the source transmutes it to an invalid `Opcode` value — undefined
behavior, not a reported decode error (`DecodeError.transmuteUndefined`
is this model's marker for that spot, not a check in the source). -/
theorem opcode_rejection_bounds :
    parse_next_instruction [0xFF] = .error .invalidOpcode ∧
    parse_next_instruction [0x00] = .error .transmuteUndefined ∧
    opcodeTryFromAccepts 0x00 = true ∧
    ((List.range 128).all fun n =>
      decide ((Opcode.ofU8 n).isSome ↔ 1 ≤ n ∧ n ≤ 0x0f)) = true := by decide

/-! ## Claim C7 -/

/-- C7: `ADD`, `SUB`, `MUL`, `INC` and `DEC` on an integer register
store the `u16`-wrapped result (the modulo-2¹⁶ value of
`overflowing_add`/`sub`/`mul`), report the overflow diagnostic exactly
when the operation wrapped, and execution continues unterminated with
the program counter advanced — never a fatal error. -/
theorem integer_arithmetic_wraps (m : HostMath) (vm : Vm) (op : ArithOp)
    (r : UintRegister) (v : Value)
    (hget : vm.program.get? vm.pc = some (op.toInstr (.UintRegister r) v))
    (hterm : vm.terminated = false) :
    ∃ vm' out,
      Vm.step m vm = .ok (vm', out,
        (op.overflowing (vm.uint_registers r) (vm.unwrap_uint_value v)).2) ∧
      vm'.uint_registers r =
        (op.overflowing (vm.uint_registers r) (vm.unwrap_uint_value v)).1 ∧
      vm'.terminated = false ∧ vm'.pc = vm.pc + 1 := by
  have key : Vm.step m vm = stepFinish { vm with uint_registers := setUint vm.uint_registers r ((op.overflowing (vm.uint_registers r) (vm.unwrap_uint_value v)).1) } ((op.overflowing (vm.uint_registers r) (vm.unwrap_uint_value v)).2) := by
    cases op <;>
      · simp only [ArithOp.toInstr] at hget
        unfold Vm.step
        rw [hget]
        simp [ArithOp.overflowing, overflowing_add, overflowing_sub, overflowing_mul]
  obtain ⟨out, hfin⟩ := stepFinish_ok { vm with uint_registers := setUint vm.uint_registers r ((op.overflowing (vm.uint_registers r) (vm.unwrap_uint_value v)).1) } ((op.overflowing (vm.uint_registers r) (vm.unwrap_uint_value v)).2)
  rw [hfin] at key
  exact ⟨_, out, key, by simp [setUint], hterm, rfl⟩

/-- Witness for `integer_arithmetic_wraps`: `INC` on register A holding
`0xFFFF` wraps to 0, emits the overflow diagnostic, and continues. -/
theorem integer_arithmetic_wraps_witness :
    ∃ vm' out, Vm.step hostMath0 incFFFFVm = .ok (vm', out, true) ∧
      vm'.uint_registers .A = 0 ∧ vm'.terminated = false ∧
      vm'.pc = incFFFFVm.pc + 1 := by
  have h := integer_arithmetic_wraps hostMath0 incFFFFVm .inc .A (.Uint 0) rfl rfl
  simpa [incFFFFVm, setUint, ArithOp.overflowing, overflowing_add, Vm.new] using h

/-! ## Claim C3 -/

/-- C3: for every instruction the decoder can produce — each variant, in
both the immediate and the register second-operand form — the
assembler's encoding decodes back to the same instruction, consuming the
whole byte sequence, and the high bit (0x80) of the opcode byte is set
exactly when the second operand is a register reference. -/
theorem decode_encode_roundtrip (i : Instruction) (h : InstructionWF i = true) :
    ∃ bs, encode i = some bs ∧
      parse_next_instruction bs = .ok (bs.length, i) ∧
      (bs.headD 0) &&& 0x80 = (if secondOperandIsRegister i then 0x80 else 0) := by
  cases i with
  | Draw => exact ⟨_, rfl, by decide, by decide⟩
  | Halt => exact ⟨_, rfl, by decide, by decide⟩
  | Forward => exact ⟨_, rfl, by decide, by decide⟩
  | Increment r =>
      refine ⟨_, rfl, ?_, ?_⟩
      · simp [encodeWithValue, parse_next_instruction, ProgBuf.read_u8,
            ProgBuf.register, ProgBuf.value, ProgBuf.read_u16, u16le, Opcode.toU8,
            Opcode.ofU8, opcodeTryFromAccepts, Register.from_u8_toU8, Nat.mod_add_div,
            (by decide : (4 &&& 127 : Nat) = 4),
            (by decide : (4 &&& 128 : Nat) = 0)]
      · simp [encodeWithValue, u16le, Opcode.toU8, secondOperandIsRegister,
            secondOperandIsRegister.ValueIsRegister, (by decide : (4 &&& 128 : Nat) = 0)]
  | Decrement r =>
      refine ⟨_, rfl, ?_, ?_⟩
      · simp [encodeWithValue, parse_next_instruction, ProgBuf.read_u8,
            ProgBuf.register, ProgBuf.value, ProgBuf.read_u16, u16le, Opcode.toU8,
            Opcode.ofU8, opcodeTryFromAccepts, Register.from_u8_toU8, Nat.mod_add_div,
            (by decide : (6 &&& 127 : Nat) = 6),
            (by decide : (6 &&& 128 : Nat) = 0)]
      · simp [encodeWithValue, u16le, Opcode.toU8, secondOperandIsRegister,
            secondOperandIsRegister.ValueIsRegister, (by decide : (6 &&& 128 : Nat) = 0)]
  | JumpIfNonZero r a =>
      refine ⟨_, rfl, ?_, ?_⟩
      · simp [encodeWithValue, parse_next_instruction, ProgBuf.read_u8,
            ProgBuf.register, ProgBuf.value, ProgBuf.read_u16, u16le, Opcode.toU8,
            Opcode.ofU8, opcodeTryFromAccepts, Register.from_u8_toU8, Nat.mod_add_div,
            (by decide : (7 &&& 127 : Nat) = 7),
            (by decide : (7 &&& 128 : Nat) = 0)]
      · simp [encodeWithValue, u16le, Opcode.toU8, secondOperandIsRegister,
            secondOperandIsRegister.ValueIsRegister, (by decide : (7 &&& 128 : Nat) = 0)]
  | Store r v =>
      cases v with
      | Uint n =>
          refine ⟨_, rfl, ?_, ?_⟩
          · simp [encodeWithValue, parse_next_instruction, ProgBuf.read_u8,
            ProgBuf.register, ProgBuf.value, ProgBuf.read_u16, u16le, Opcode.toU8,
            Opcode.ofU8, opcodeTryFromAccepts, Register.from_u8_toU8, Nat.mod_add_div,
            (by decide : (3 &&& 127 : Nat) = 3),
            (by decide : (3 &&& 128 : Nat) = 0)]
          · simp [encodeWithValue, u16le, Opcode.toU8, secondOperandIsRegister,
            secondOperandIsRegister.ValueIsRegister, (by decide : (3 &&& 128 : Nat) = 0)]
      | Float f => simp [InstructionWF, ValueWF] at h
      | Register r2 =>
          refine ⟨_, rfl, ?_, ?_⟩
          · simp [encodeWithValue, parse_next_instruction, ProgBuf.read_u8,
            ProgBuf.register, ProgBuf.value, ProgBuf.read_u16, u16le, Opcode.toU8,
            Opcode.ofU8, opcodeTryFromAccepts, Register.from_u8_toU8, Nat.mod_add_div,
            (by decide : (131 &&& 127 : Nat) = 3),
            (by decide : (131 &&& 128 : Nat) = 128)]
          · simp [encodeWithValue, u16le, Opcode.toU8, secondOperandIsRegister,
            secondOperandIsRegister.ValueIsRegister, (by decide : (131 &&& 128 : Nat) = 128)]
  | Add r v =>
      cases v with
      | Uint n =>
          refine ⟨_, rfl, ?_, ?_⟩
          · simp [encodeWithValue, parse_next_instruction, ProgBuf.read_u8,
            ProgBuf.register, ProgBuf.value, ProgBuf.read_u16, u16le, Opcode.toU8,
            Opcode.ofU8, opcodeTryFromAccepts, Register.from_u8_toU8, Nat.mod_add_div,
            (by decide : (5 &&& 127 : Nat) = 5),
            (by decide : (5 &&& 128 : Nat) = 0)]
          · simp [encodeWithValue, u16le, Opcode.toU8, secondOperandIsRegister,
            secondOperandIsRegister.ValueIsRegister, (by decide : (5 &&& 128 : Nat) = 0)]
      | Float f => simp [InstructionWF, ValueWF] at h
      | Register r2 =>
          refine ⟨_, rfl, ?_, ?_⟩
          · simp [encodeWithValue, parse_next_instruction, ProgBuf.read_u8,
            ProgBuf.register, ProgBuf.value, ProgBuf.read_u16, u16le, Opcode.toU8,
            Opcode.ofU8, opcodeTryFromAccepts, Register.from_u8_toU8, Nat.mod_add_div,
            (by decide : (133 &&& 127 : Nat) = 5),
            (by decide : (133 &&& 128 : Nat) = 128)]
          · simp [encodeWithValue, u16le, Opcode.toU8, secondOperandIsRegister,
            secondOperandIsRegister.ValueIsRegister, (by decide : (133 &&& 128 : Nat) = 128)]
  | Sub r v =>
      cases v with
      | Uint n =>
          refine ⟨_, rfl, ?_, ?_⟩
          · simp [encodeWithValue, parse_next_instruction, ProgBuf.read_u8,
            ProgBuf.register, ProgBuf.value, ProgBuf.read_u16, u16le, Opcode.toU8,
            Opcode.ofU8, opcodeTryFromAccepts, Register.from_u8_toU8, Nat.mod_add_div,
            (by decide : (11 &&& 127 : Nat) = 11),
            (by decide : (11 &&& 128 : Nat) = 0)]
          · simp [encodeWithValue, u16le, Opcode.toU8, secondOperandIsRegister,
            secondOperandIsRegister.ValueIsRegister, (by decide : (11 &&& 128 : Nat) = 0)]
      | Float f => simp [InstructionWF, ValueWF] at h
      | Register r2 =>
          refine ⟨_, rfl, ?_, ?_⟩
          · simp [encodeWithValue, parse_next_instruction, ProgBuf.read_u8,
            ProgBuf.register, ProgBuf.value, ProgBuf.read_u16, u16le, Opcode.toU8,
            Opcode.ofU8, opcodeTryFromAccepts, Register.from_u8_toU8, Nat.mod_add_div,
            (by decide : (139 &&& 127 : Nat) = 11),
            (by decide : (139 &&& 128 : Nat) = 128)]
          · simp [encodeWithValue, u16le, Opcode.toU8, secondOperandIsRegister,
            secondOperandIsRegister.ValueIsRegister, (by decide : (139 &&& 128 : Nat) = 128)]
  | Multiply r v =>
      cases v with
      | Uint n =>
          refine ⟨_, rfl, ?_, ?_⟩
          · simp [encodeWithValue, parse_next_instruction, ProgBuf.read_u8,
            ProgBuf.register, ProgBuf.value, ProgBuf.read_u16, u16le, Opcode.toU8,
            Opcode.ofU8, opcodeTryFromAccepts, Register.from_u8_toU8, Nat.mod_add_div,
            (by decide : (9 &&& 127 : Nat) = 9),
            (by decide : (9 &&& 128 : Nat) = 0)]
          · simp [encodeWithValue, u16le, Opcode.toU8, secondOperandIsRegister,
            secondOperandIsRegister.ValueIsRegister, (by decide : (9 &&& 128 : Nat) = 0)]
      | Float f => simp [InstructionWF, ValueWF] at h
      | Register r2 =>
          refine ⟨_, rfl, ?_, ?_⟩
          · simp [encodeWithValue, parse_next_instruction, ProgBuf.read_u8,
            ProgBuf.register, ProgBuf.value, ProgBuf.read_u16, u16le, Opcode.toU8,
            Opcode.ofU8, opcodeTryFromAccepts, Register.from_u8_toU8, Nat.mod_add_div,
            (by decide : (137 &&& 127 : Nat) = 9),
            (by decide : (137 &&& 128 : Nat) = 128)]
          · simp [encodeWithValue, u16le, Opcode.toU8, secondOperandIsRegister,
            secondOperandIsRegister.ValueIsRegister, (by decide : (137 &&& 128 : Nat) = 128)]
  | Divide r v =>
      cases v with
      | Uint n =>
          refine ⟨_, rfl, ?_, ?_⟩
          · simp [encodeWithValue, parse_next_instruction, ProgBuf.read_u8,
            ProgBuf.register, ProgBuf.value, ProgBuf.read_u16, u16le, Opcode.toU8,
            Opcode.ofU8, opcodeTryFromAccepts, Register.from_u8_toU8, Nat.mod_add_div,
            (by decide : (15 &&& 127 : Nat) = 15),
            (by decide : (15 &&& 128 : Nat) = 0)]
          · simp [encodeWithValue, u16le, Opcode.toU8, secondOperandIsRegister,
            secondOperandIsRegister.ValueIsRegister, (by decide : (15 &&& 128 : Nat) = 0)]
      | Float f => simp [InstructionWF, ValueWF] at h
      | Register r2 =>
          refine ⟨_, rfl, ?_, ?_⟩
          · simp [encodeWithValue, parse_next_instruction, ProgBuf.read_u8,
            ProgBuf.register, ProgBuf.value, ProgBuf.read_u16, u16le, Opcode.toU8,
            Opcode.ofU8, opcodeTryFromAccepts, Register.from_u8_toU8, Nat.mod_add_div,
            (by decide : (143 &&& 127 : Nat) = 15),
            (by decide : (143 &&& 128 : Nat) = 128)]
          · simp [encodeWithValue, u16le, Opcode.toU8, secondOperandIsRegister,
            secondOperandIsRegister.ValueIsRegister, (by decide : (143 &&& 128 : Nat) = 128)]
  | JumpIfEqual r v a =>
      cases v with
      | Uint n =>
          refine ⟨_, rfl, ?_, ?_⟩
          · simp [encodeWithValue, parse_next_instruction, ProgBuf.read_u8,
            ProgBuf.register, ProgBuf.value, ProgBuf.read_u16, u16le, Opcode.toU8,
            Opcode.ofU8, opcodeTryFromAccepts, Register.from_u8_toU8, Nat.mod_add_div,
            (by decide : (12 &&& 127 : Nat) = 12),
            (by decide : (12 &&& 128 : Nat) = 0)]
          · simp [encodeWithValue, u16le, Opcode.toU8, secondOperandIsRegister,
            secondOperandIsRegister.ValueIsRegister, (by decide : (12 &&& 128 : Nat) = 0)]
      | Float f => simp [InstructionWF, ValueWF] at h
      | Register r2 =>
          refine ⟨_, rfl, ?_, ?_⟩
          · simp [encodeWithValue, parse_next_instruction, ProgBuf.read_u8,
            ProgBuf.register, ProgBuf.value, ProgBuf.read_u16, u16le, Opcode.toU8,
            Opcode.ofU8, opcodeTryFromAccepts, Register.from_u8_toU8, Nat.mod_add_div,
            (by decide : (140 &&& 127 : Nat) = 12),
            (by decide : (140 &&& 128 : Nat) = 128)]
          · simp [encodeWithValue, u16le, Opcode.toU8, secondOperandIsRegister,
            secondOperandIsRegister.ValueIsRegister, (by decide : (140 &&& 128 : Nat) = 128)]
  | JumpIfNotEqual r v a =>
      cases v with
      | Uint n =>
          refine ⟨_, rfl, ?_, ?_⟩
          · simp [encodeWithValue, parse_next_instruction, ProgBuf.read_u8,
            ProgBuf.register, ProgBuf.value, ProgBuf.read_u16, u16le, Opcode.toU8,
            Opcode.ofU8, opcodeTryFromAccepts, Register.from_u8_toU8, Nat.mod_add_div,
            (by decide : (13 &&& 127 : Nat) = 13),
            (by decide : (13 &&& 128 : Nat) = 0)]
          · simp [encodeWithValue, u16le, Opcode.toU8, secondOperandIsRegister,
            secondOperandIsRegister.ValueIsRegister, (by decide : (13 &&& 128 : Nat) = 0)]
      | Float f => simp [InstructionWF, ValueWF] at h
      | Register r2 =>
          refine ⟨_, rfl, ?_, ?_⟩
          · simp [encodeWithValue, parse_next_instruction, ProgBuf.read_u8,
            ProgBuf.register, ProgBuf.value, ProgBuf.read_u16, u16le, Opcode.toU8,
            Opcode.ofU8, opcodeTryFromAccepts, Register.from_u8_toU8, Nat.mod_add_div,
            (by decide : (141 &&& 127 : Nat) = 13),
            (by decide : (141 &&& 128 : Nat) = 128)]
          · simp [encodeWithValue, u16le, Opcode.toU8, secondOperandIsRegister,
            secondOperandIsRegister.ValueIsRegister, (by decide : (141 &&& 128 : Nat) = 128)]
  | JumpIfGreaterThan r v a =>
      cases v with
      | Uint n =>
          refine ⟨_, rfl, ?_, ?_⟩
          · simp [encodeWithValue, parse_next_instruction, ProgBuf.read_u8,
            ProgBuf.register, ProgBuf.value, ProgBuf.read_u16, u16le, Opcode.toU8,
            Opcode.ofU8, opcodeTryFromAccepts, Register.from_u8_toU8, Nat.mod_add_div,
            (by decide : (10 &&& 127 : Nat) = 10),
            (by decide : (10 &&& 128 : Nat) = 0)]
          · simp [encodeWithValue, u16le, Opcode.toU8, secondOperandIsRegister,
            secondOperandIsRegister.ValueIsRegister, (by decide : (10 &&& 128 : Nat) = 0)]
      | Float f => simp [InstructionWF, ValueWF] at h
      | Register r2 =>
          refine ⟨_, rfl, ?_, ?_⟩
          · simp [encodeWithValue, parse_next_instruction, ProgBuf.read_u8,
            ProgBuf.register, ProgBuf.value, ProgBuf.read_u16, u16le, Opcode.toU8,
            Opcode.ofU8, opcodeTryFromAccepts, Register.from_u8_toU8, Nat.mod_add_div,
            (by decide : (138 &&& 127 : Nat) = 10),
            (by decide : (138 &&& 128 : Nat) = 128)]
          · simp [encodeWithValue, u16le, Opcode.toU8, secondOperandIsRegister,
            secondOperandIsRegister.ValueIsRegister, (by decide : (138 &&& 128 : Nat) = 128)]
  | JumpIfLessThan r v a =>
      cases v with
      | Uint n =>
          refine ⟨_, rfl, ?_, ?_⟩
          · simp [encodeWithValue, parse_next_instruction, ProgBuf.read_u8,
            ProgBuf.register, ProgBuf.value, ProgBuf.read_u16, u16le, Opcode.toU8,
            Opcode.ofU8, opcodeTryFromAccepts, Register.from_u8_toU8, Nat.mod_add_div,
            (by decide : (14 &&& 127 : Nat) = 14),
            (by decide : (14 &&& 128 : Nat) = 0)]
          · simp [encodeWithValue, u16le, Opcode.toU8, secondOperandIsRegister,
            secondOperandIsRegister.ValueIsRegister, (by decide : (14 &&& 128 : Nat) = 0)]
      | Float f => simp [InstructionWF, ValueWF] at h
      | Register r2 =>
          refine ⟨_, rfl, ?_, ?_⟩
          · simp [encodeWithValue, parse_next_instruction, ProgBuf.read_u8,
            ProgBuf.register, ProgBuf.value, ProgBuf.read_u16, u16le, Opcode.toU8,
            Opcode.ofU8, opcodeTryFromAccepts, Register.from_u8_toU8, Nat.mod_add_div,
            (by decide : (142 &&& 127 : Nat) = 14),
            (by decide : (142 &&& 128 : Nat) = 128)]
          · simp [encodeWithValue, u16le, Opcode.toU8, secondOperandIsRegister,
            secondOperandIsRegister.ValueIsRegister, (by decide : (142 &&& 128 : Nat) = 128)]

/-- Witness for `decode_encode_roundtrip` at `STO B, 0x1234` (immediate
form). -/
theorem decode_encode_roundtrip_witness :
    InstructionWF (.Store (.UintRegister .B) (.Uint 0x1234)) = true ∧
    ∃ bs, encode (.Store (.UintRegister .B) (.Uint 0x1234)) = some bs ∧
      parse_next_instruction bs =
        .ok (bs.length, .Store (.UintRegister .B) (.Uint 0x1234)) ∧
      (bs.headD 0) &&& 0x80 =
        (if secondOperandIsRegister (.Store (.UintRegister .B) (.Uint 0x1234))
         then 0x80 else 0) :=
  ⟨by decide, decode_encode_roundtrip (.Store (.UintRegister .B) (.Uint 0x1234)) (by decide)⟩

/-! ## Claim C8 -/

/-- C8: conditional jumps on a float register decide equality with the
epsilon tolerance (`JEQ` jumps iff `|a - b| < ε`, `JNE` iff
`|a - b| > ε`, `JNZ` iff `|a - 0| > ε`, for `ε = f64::EPSILON`), while
`JGT` and `JLT` compare exactly (`b < a`, `a < b`) with no epsilon; a
taken jump sets the program counter to the target, a non-taken jump
falls through to the ordinary end of the step. -/
theorem float_jump_epsilon (m : HostMath) (vm : Vm) (fr : FloatRegister)
    (v : Value) (addr : Nat) :
    (vm.program.get? vm.pc = some (.JumpIfEqual (.FloatRegister fr) v addr) →
      Vm.step m vm =
        if ((vm.float_registers fr).sub (vm.unwrap_float_value v)).absF.lt f64Epsilon
        then .ok ({ vm with pc := addr }, none, false)
        else stepFinish vm false) ∧
    (vm.program.get? vm.pc = some (.JumpIfNotEqual (.FloatRegister fr) v addr) →
      Vm.step m vm =
        if f64Epsilon.lt ((vm.float_registers fr).sub (vm.unwrap_float_value v)).absF
        then .ok ({ vm with pc := addr }, none, false)
        else stepFinish vm false) ∧
    (vm.program.get? vm.pc = some (.JumpIfNonZero (.FloatRegister fr) addr) →
      Vm.step m vm =
        if f64Epsilon.lt ((vm.float_registers fr).sub (F64.finite 0)).absF
        then .ok ({ vm with pc := addr }, none, false)
        else stepFinish vm false) ∧
    (vm.program.get? vm.pc = some (.JumpIfGreaterThan (.FloatRegister fr) v addr) →
      Vm.step m vm =
        if (vm.unwrap_float_value v).lt (vm.float_registers fr)
        then .ok ({ vm with pc := addr }, none, false)
        else stepFinish vm false) ∧
    (vm.program.get? vm.pc = some (.JumpIfLessThan (.FloatRegister fr) v addr) →
      Vm.step m vm =
        if (vm.float_registers fr).lt (vm.unwrap_float_value v)
        then .ok ({ vm with pc := addr }, none, false)
        else stepFinish vm false) := by
  refine ⟨?_, ?_, ?_, ?_, ?_⟩ <;> intro hget <;> unfold Vm.step <;> rw [hget]
  · simp [Vm.check_conditional, eqPred]
  · simp [Vm.check_conditional, nePred]
  · simp [Vm.check_conditional, nePred, Vm.unwrap_float_value]
  · simp [Vm.check_conditional, gtPred]
  · simp [Vm.check_conditional, ltPred]

/-- Witness for `float_jump_epsilon`: the five jumps over float register
S in one-instruction programs. -/
theorem float_jump_epsilon_witness :
    (Vm.step hostMath0 jeqVm =
      if ((jeqVm.float_registers .S).sub (jeqVm.unwrap_float_value (.Uint 0))).absF.lt f64Epsilon
      then .ok ({ jeqVm with pc := 0 }, none, false) else stepFinish jeqVm false) ∧
    (Vm.step hostMath0 jneVm =
      if f64Epsilon.lt ((jneVm.float_registers .S).sub (jneVm.unwrap_float_value (.Uint 0))).absF
      then .ok ({ jneVm with pc := 0 }, none, false) else stepFinish jneVm false) ∧
    (Vm.step hostMath0 jnzFloatVm =
      if f64Epsilon.lt ((jnzFloatVm.float_registers .S).sub (F64.finite 0)).absF
      then .ok ({ jnzFloatVm with pc := 0 }, none, false) else stepFinish jnzFloatVm false) ∧
    (Vm.step hostMath0 jgtVm =
      if (jgtVm.unwrap_float_value (.Uint 0)).lt (jgtVm.float_registers .S)
      then .ok ({ jgtVm with pc := 0 }, none, false) else stepFinish jgtVm false) ∧
    (Vm.step hostMath0 jltVm =
      if (jltVm.float_registers .S).lt (jltVm.unwrap_float_value (.Uint 0))
      then .ok ({ jltVm with pc := 0 }, none, false) else stepFinish jltVm false) :=
  ⟨(float_jump_epsilon hostMath0 jeqVm .S (.Uint 0) 0).1 rfl,
   (float_jump_epsilon hostMath0 jneVm .S (.Uint 0) 0).2.1 rfl,
   (float_jump_epsilon hostMath0 jnzFloatVm .S (.Uint 0) 0).2.2.1 rfl,
   (float_jump_epsilon hostMath0 jgtVm .S (.Uint 0) 0).2.2.2.1 rfl,
   (float_jump_epsilon hostMath0 jltVm .S (.Uint 0) 0).2.2.2.2 rfl⟩

/-! ## Claim C9 -/

/-- C9: a jump target is not validated at decode time (a `JNZ` to 65535
decodes fine) nor when the jump executes (a taken jump to any address,
in bounds or not, succeeds and just sets the program counter); the fault
surfaces at the next fetch: any step whose program counter is at or past
the end of the program — after a wild jump, or after running off the end
of a program lacking `HLT` — is the fatal `program[pc]` panic. -/
theorem jump_bounds_unchecked :
    (parse_next_instruction [0x07, 0x00, 0xFF, 0xFF] =
      .ok (4, .JumpIfNonZero (.UintRegister .A) 65535)) ∧
    (∀ (m : HostMath) (vm : Vm) (r : Register) (addr : Nat),
      vm.program.get? vm.pc = some (.JumpIfNonZero r addr) →
      vm.check_conditional r (.Uint 0) nePred = true →
      Vm.step m vm = .ok ({ vm with pc := addr }, none, false)) ∧
    (∀ (m : HostMath) (vm : Vm), vm.program.length ≤ vm.pc →
      Vm.step m vm = .error .fetchOutOfBounds) := by
  refine ⟨by decide, ?_, ?_⟩
  · intro m vm r addr hget hcond
    unfold Vm.step
    rw [hget]
    simp [hcond]
  · intro m vm h
    unfold Vm.step
    rw [List.get?_eq_none.mpr h]

/-- Witness for `jump_bounds_unchecked`: with register A = 1, the `JNZ`
to address 99 in a one-instruction program succeeds; the very next step
faults at the fetch. -/
theorem jump_bounds_unchecked_witness :
    Vm.step hostMath0 jnzOobVm = .ok ({ jnzOobVm with pc := 99 }, none, false) ∧
    Vm.step hostMath0 { jnzOobVm with pc := 99 } = .error .fetchOutOfBounds :=
  ⟨jump_bounds_unchecked.2.1 hostMath0 jnzOobVm (.UintRegister .A) 99 rfl
    (by norm_num [Vm.check_conditional, Vm.unwrap_uint_value, nePred, F64.sub,
      F64.neg, F64.add, F64.absF, F64.lt, f64Epsilon, jnzOobVm, setUint, Vm.new]),
   jump_bounds_unchecked.2.2 hostMath0 { jnzOobVm with pc := 99 } (by decide)⟩

/-- Any successful `stepFinish` result has the program counter advanced
by one and emits a pixel event exactly when the pen is down in the
resulting state. -/
theorem stepFinish_spec (s : Vm) (w : Bool) (vm' : Vm) (out : Option Pixel) (w' : Bool)
    (h : stepFinish s w = .ok (vm', out, w')) :
    vm'.pc = s.pc + 1 ∧
    out = (if vm'.draw then
        some ((vm'.float_registers .X).toIsize, (vm'.float_registers .Y).toIsize, 0xffffff)
      else none) := by
  unfold stepFinish at h
  by_cases hd : s.draw
  · simp only [hd, if_true, Except.ok.injEq, Prod.mk.injEq] at h
    obtain ⟨hv, ho, hw⟩ := h
    subst hv
    simp [hd, ho]
  · simp only [hd, if_false, Bool.false_eq_true, Except.ok.injEq, Prod.mk.injEq] at h
    obtain ⟨hv, ho, hw⟩ := h
    subst hv
    simp [hd, ho]

/-! ## Claim C10 -/

/-- C10: for every instruction whose execution does not take a jump —
`DRW`, `HLT`, `FWD`, `STO`, `INC`, `DEC`, the arithmetic instructions,
and a conditional jump whose predicate is false — a successful step
increments the program counter by one and returns a pixel event
(integer-truncated X, integer-truncated Y, color 0xFFFFFF) exactly when
the pen-down flag is true at the end of the step; a taken jump always
returns no pixel event, even while the pen is down. -/
theorem pixel_emission_policy (m : HostMath) (vm vm' : Vm)
    (out : Option Pixel) (warned : Bool) (instr : Instruction)
    (hget : vm.program.get? vm.pc = some instr)
    (hstep : Vm.step m vm = .ok (vm', out, warned)) :
    (jumpTaken vm instr = true → out = none) ∧
    (jumpTaken vm instr = false → vm'.pc = vm.pc + 1 ∧
      out = (if vm'.draw then
          some ((vm'.float_registers .X).toIsize, (vm'.float_registers .Y).toIsize, 0xffffff)
        else none)) := by
  cases instr with
  | Draw =>
      unfold Vm.step at hstep
      rw [hget] at hstep
      have hs : stepFinish { vm with draw := !vm.draw } false = .ok (vm', out, warned) := hstep
      obtain ⟨h1, h2⟩ := stepFinish_spec _ _ _ _ _ hs
      exact ⟨fun hj => by simp [jumpTaken] at hj, fun _ => ⟨h1, h2⟩⟩
  | Halt =>
      unfold Vm.step at hstep
      rw [hget] at hstep
      have hs : stepFinish { vm with terminated := true } false = .ok (vm', out, warned) := hstep
      obtain ⟨h1, h2⟩ := stepFinish_spec _ _ _ _ _ hs
      exact ⟨fun hj => by simp [jumpTaken] at hj, fun _ => ⟨h1, h2⟩⟩
  | Forward =>
      unfold Vm.step at hstep
      rw [hget] at hstep
      have hs : stepFinish { vm with float_registers := setFloat (setFloat vm.float_registers .X ((vm.float_registers .X).add (m.cos (m.toRadians (F64.finite ((vm.uint_registers .A % 360 : Nat) : ℚ)))))) .Y ((setFloat vm.float_registers .X ((vm.float_registers .X).add (m.cos (m.toRadians (F64.finite ((vm.uint_registers .A % 360 : Nat) : ℚ))))) .Y).add (m.sin (m.toRadians (F64.finite ((vm.uint_registers .A % 360 : Nat) : ℚ))))) } false = .ok (vm', out, warned) := hstep
      obtain ⟨h1, h2⟩ := stepFinish_spec _ _ _ _ _ hs
      exact ⟨fun hj => by simp [jumpTaken] at hj, fun _ => ⟨h1, h2⟩⟩
  | Multiply register value =>
      cases register with
      | UintRegister u =>
          unfold Vm.step at hstep
          rw [hget] at hstep
          have hs : stepFinish { vm with uint_registers := setUint vm.uint_registers u ((overflowing_mul (vm.uint_registers u) (vm.unwrap_uint_value value)).1) } (overflowing_mul (vm.uint_registers u) (vm.unwrap_uint_value value)).2 = .ok (vm', out, warned) := hstep
          obtain ⟨h1, h2⟩ := stepFinish_spec _ _ _ _ _ hs
          exact ⟨fun hj => by simp [jumpTaken] at hj, fun _ => ⟨h1, h2⟩⟩
      | FloatRegister f =>
          unfold Vm.step at hstep
          rw [hget] at hstep
          have hs : stepFinish { vm with float_registers := setFloat vm.float_registers f ((vm.float_registers f).mul (vm.unwrap_float_value value)) } false = .ok (vm', out, warned) := hstep
          obtain ⟨h1, h2⟩ := stepFinish_spec _ _ _ _ _ hs
          exact ⟨fun hj => by simp [jumpTaken] at hj, fun _ => ⟨h1, h2⟩⟩
  | Add register value =>
      cases register with
      | UintRegister u =>
          unfold Vm.step at hstep
          rw [hget] at hstep
          have hs : stepFinish { vm with uint_registers := setUint vm.uint_registers u ((overflowing_add (vm.uint_registers u) (vm.unwrap_uint_value value)).1) } (overflowing_add (vm.uint_registers u) (vm.unwrap_uint_value value)).2 = .ok (vm', out, warned) := hstep
          obtain ⟨h1, h2⟩ := stepFinish_spec _ _ _ _ _ hs
          exact ⟨fun hj => by simp [jumpTaken] at hj, fun _ => ⟨h1, h2⟩⟩
      | FloatRegister f =>
          unfold Vm.step at hstep
          rw [hget] at hstep
          have hs : stepFinish { vm with float_registers := setFloat vm.float_registers f ((vm.float_registers f).add (vm.unwrap_float_value value)) } false = .ok (vm', out, warned) := hstep
          obtain ⟨h1, h2⟩ := stepFinish_spec _ _ _ _ _ hs
          exact ⟨fun hj => by simp [jumpTaken] at hj, fun _ => ⟨h1, h2⟩⟩
  | Sub register value =>
      cases register with
      | UintRegister u =>
          unfold Vm.step at hstep
          rw [hget] at hstep
          have hs : stepFinish { vm with uint_registers := setUint vm.uint_registers u ((overflowing_sub (vm.uint_registers u) (vm.unwrap_uint_value value)).1) } (overflowing_sub (vm.uint_registers u) (vm.unwrap_uint_value value)).2 = .ok (vm', out, warned) := hstep
          obtain ⟨h1, h2⟩ := stepFinish_spec _ _ _ _ _ hs
          exact ⟨fun hj => by simp [jumpTaken] at hj, fun _ => ⟨h1, h2⟩⟩
      | FloatRegister f =>
          unfold Vm.step at hstep
          rw [hget] at hstep
          have hs : stepFinish { vm with float_registers := setFloat vm.float_registers f ((vm.float_registers f).sub (vm.unwrap_float_value value)) } false = .ok (vm', out, warned) := hstep
          obtain ⟨h1, h2⟩ := stepFinish_spec _ _ _ _ _ hs
          exact ⟨fun hj => by simp [jumpTaken] at hj, fun _ => ⟨h1, h2⟩⟩
  | Store register value =>
      cases register with
      | UintRegister u =>
          unfold Vm.step at hstep
          rw [hget] at hstep
          have hs : stepFinish { vm with uint_registers := setUint vm.uint_registers u (vm.unwrap_uint_value value) } false = .ok (vm', out, warned) := hstep
          obtain ⟨h1, h2⟩ := stepFinish_spec _ _ _ _ _ hs
          exact ⟨fun hj => by simp [jumpTaken] at hj, fun _ => ⟨h1, h2⟩⟩
      | FloatRegister f =>
          unfold Vm.step at hstep
          rw [hget] at hstep
          have hs : stepFinish { vm with float_registers := setFloat vm.float_registers f (vm.unwrap_float_value value) } false = .ok (vm', out, warned) := hstep
          obtain ⟨h1, h2⟩ := stepFinish_spec _ _ _ _ _ hs
          exact ⟨fun hj => by simp [jumpTaken] at hj, fun _ => ⟨h1, h2⟩⟩
  | Divide register value =>
      cases register with
      | UintRegister u =>
          by_cases hz : vm.unwrap_uint_value value = 0
          · have key : Vm.step m vm = .error .divByZero := by
              unfold Vm.step
              rw [hget]
              simp [hz]
            rw [key] at hstep
            simp at hstep
          · have key : Vm.step m vm = stepFinish { vm with uint_registers := setUint vm.uint_registers u (vm.uint_registers u / vm.unwrap_uint_value value) } false := by
              unfold Vm.step
              rw [hget]
              simp [hz]
            rw [key] at hstep
            obtain ⟨h1, h2⟩ := stepFinish_spec _ _ _ _ _ hstep
            exact ⟨fun hj => by simp [jumpTaken] at hj, fun _ => ⟨h1, h2⟩⟩
      | FloatRegister f =>
          unfold Vm.step at hstep
          rw [hget] at hstep
          have hs : stepFinish { vm with float_registers := setFloat vm.float_registers f ((vm.float_registers f).div (vm.unwrap_float_value value)) } false = .ok (vm', out, warned) := hstep
          obtain ⟨h1, h2⟩ := stepFinish_spec _ _ _ _ _ hs
          exact ⟨fun hj => by simp [jumpTaken] at hj, fun _ => ⟨h1, h2⟩⟩
  | Decrement register =>
      cases register with
      | UintRegister u =>
          unfold Vm.step at hstep
          rw [hget] at hstep
          have hs : stepFinish { vm with uint_registers := setUint vm.uint_registers u ((overflowing_sub (vm.uint_registers u) 1).1) } (overflowing_sub (vm.uint_registers u) 1).2 = .ok (vm', out, warned) := hstep
          obtain ⟨h1, h2⟩ := stepFinish_spec _ _ _ _ _ hs
          exact ⟨fun hj => by simp [jumpTaken] at hj, fun _ => ⟨h1, h2⟩⟩
      | FloatRegister f =>
          unfold Vm.step at hstep
          rw [hget] at hstep
          have hs : stepFinish { vm with float_registers := setFloat vm.float_registers f ((vm.float_registers f).sub (F64.finite 1)) } false = .ok (vm', out, warned) := hstep
          obtain ⟨h1, h2⟩ := stepFinish_spec _ _ _ _ _ hs
          exact ⟨fun hj => by simp [jumpTaken] at hj, fun _ => ⟨h1, h2⟩⟩
  | Increment register =>
      cases register with
      | UintRegister u =>
          unfold Vm.step at hstep
          rw [hget] at hstep
          have hs : stepFinish { vm with uint_registers := setUint vm.uint_registers u ((overflowing_add (vm.uint_registers u) 1).1) } (overflowing_add (vm.uint_registers u) 1).2 = .ok (vm', out, warned) := hstep
          obtain ⟨h1, h2⟩ := stepFinish_spec _ _ _ _ _ hs
          exact ⟨fun hj => by simp [jumpTaken] at hj, fun _ => ⟨h1, h2⟩⟩
      | FloatRegister f =>
          unfold Vm.step at hstep
          rw [hget] at hstep
          have hs : stepFinish { vm with float_registers := setFloat vm.float_registers f ((vm.float_registers f).add (F64.finite 1)) } false = .ok (vm', out, warned) := hstep
          obtain ⟨h1, h2⟩ := stepFinish_spec _ _ _ _ _ hs
          exact ⟨fun hj => by simp [jumpTaken] at hj, fun _ => ⟨h1, h2⟩⟩
  | JumpIfNonZero register addr =>
      cases hc : vm.check_conditional register (.Uint 0) nePred with
      | true =>
          have key : Vm.step m vm = .ok ({ vm with pc := addr }, none, false) := by
            unfold Vm.step
            rw [hget]
            simp [hc]
          rw [key] at hstep
          simp only [Except.ok.injEq, Prod.mk.injEq] at hstep
          obtain ⟨hv1, ho, hw⟩ := hstep
          refine ⟨fun _ => ho.symm, fun hj => ?_⟩
          simp [jumpTaken, hc] at hj
      | false =>
          have key : Vm.step m vm = stepFinish vm false := by
            unfold Vm.step
            rw [hget]
            simp [hc]
          rw [key] at hstep
          obtain ⟨h1, h2⟩ := stepFinish_spec _ _ _ _ _ hstep
          exact ⟨fun hj => by simp [jumpTaken, hc] at hj, fun _ => ⟨h1, h2⟩⟩
  | JumpIfEqual register value addr =>
      cases hc : vm.check_conditional register value eqPred with
      | true =>
          have key : Vm.step m vm = .ok ({ vm with pc := addr }, none, false) := by
            unfold Vm.step
            rw [hget]
            simp [hc]
          rw [key] at hstep
          simp only [Except.ok.injEq, Prod.mk.injEq] at hstep
          obtain ⟨hv1, ho, hw⟩ := hstep
          refine ⟨fun _ => ho.symm, fun hj => ?_⟩
          simp [jumpTaken, hc] at hj
      | false =>
          have key : Vm.step m vm = stepFinish vm false := by
            unfold Vm.step
            rw [hget]
            simp [hc]
          rw [key] at hstep
          obtain ⟨h1, h2⟩ := stepFinish_spec _ _ _ _ _ hstep
          exact ⟨fun hj => by simp [jumpTaken, hc] at hj, fun _ => ⟨h1, h2⟩⟩
  | JumpIfNotEqual register value addr =>
      cases hc : vm.check_conditional register value nePred with
      | true =>
          have key : Vm.step m vm = .ok ({ vm with pc := addr }, none, false) := by
            unfold Vm.step
            rw [hget]
            simp [hc]
          rw [key] at hstep
          simp only [Except.ok.injEq, Prod.mk.injEq] at hstep
          obtain ⟨hv1, ho, hw⟩ := hstep
          refine ⟨fun _ => ho.symm, fun hj => ?_⟩
          simp [jumpTaken, hc] at hj
      | false =>
          have key : Vm.step m vm = stepFinish vm false := by
            unfold Vm.step
            rw [hget]
            simp [hc]
          rw [key] at hstep
          obtain ⟨h1, h2⟩ := stepFinish_spec _ _ _ _ _ hstep
          exact ⟨fun hj => by simp [jumpTaken, hc] at hj, fun _ => ⟨h1, h2⟩⟩
  | JumpIfGreaterThan register value addr =>
      cases hc : vm.check_conditional register value gtPred with
      | true =>
          have key : Vm.step m vm = .ok ({ vm with pc := addr }, none, false) := by
            unfold Vm.step
            rw [hget]
            simp [hc]
          rw [key] at hstep
          simp only [Except.ok.injEq, Prod.mk.injEq] at hstep
          obtain ⟨hv1, ho, hw⟩ := hstep
          refine ⟨fun _ => ho.symm, fun hj => ?_⟩
          simp [jumpTaken, hc] at hj
      | false =>
          have key : Vm.step m vm = stepFinish vm false := by
            unfold Vm.step
            rw [hget]
            simp [hc]
          rw [key] at hstep
          obtain ⟨h1, h2⟩ := stepFinish_spec _ _ _ _ _ hstep
          exact ⟨fun hj => by simp [jumpTaken, hc] at hj, fun _ => ⟨h1, h2⟩⟩
  | JumpIfLessThan register value addr =>
      cases hc : vm.check_conditional register value ltPred with
      | true =>
          have key : Vm.step m vm = .ok ({ vm with pc := addr }, none, false) := by
            unfold Vm.step
            rw [hget]
            simp [hc]
          rw [key] at hstep
          simp only [Except.ok.injEq, Prod.mk.injEq] at hstep
          obtain ⟨hv1, ho, hw⟩ := hstep
          refine ⟨fun _ => ho.symm, fun hj => ?_⟩
          simp [jumpTaken, hc] at hj
      | false =>
          have key : Vm.step m vm = stepFinish vm false := by
            unfold Vm.step
            rw [hget]
            simp [hc]
          rw [key] at hstep
          obtain ⟨h1, h2⟩ := stepFinish_spec _ _ _ _ _ hstep
          exact ⟨fun hj => by simp [jumpTaken, hc] at hj, fun _ => ⟨h1, h2⟩⟩

/-- Witness for `pixel_emission_policy`: the single `DRW` step from the
initial state puts the pen down and emits the origin pixel event. -/
theorem pixel_emission_policy_witness :
    (jumpTaken drawVm .Draw = true →
      (some ((F64.finite 0).toIsize, (F64.finite 0).toIsize, 0xffffff) : Option Pixel) = none) ∧
    (jumpTaken drawVm .Draw = false →
      ({ drawVm with draw := true, pc := 1 } : Vm).pc = drawVm.pc + 1 ∧
      (some ((F64.finite 0).toIsize, (F64.finite 0).toIsize, 0xffffff) : Option Pixel) =
        (if ({ drawVm with draw := true, pc := 1 } : Vm).draw then
            some ((({ drawVm with draw := true, pc := 1 } : Vm).float_registers .X).toIsize,
              (({ drawVm with draw := true, pc := 1 } : Vm).float_registers .Y).toIsize, 0xffffff)
          else none)) :=
  pixel_emission_policy hostMath0 drawVm { drawVm with draw := true, pc := 1 }
    (some ((F64.finite 0).toIsize, (F64.finite 0).toIsize, 0xffffff)) false .Draw rfl rfl
